import Mathlib

/-!
Shallow embedding of the `price-oracles` repository's core: the
multi-source commodity price fetcher (`fetchWheatMaizePrices`), the
Kamis/Tridge/World Bank/Alpha Vantage adapters, the unit/currency
normalizer (`convertKamisPriceToUSD`, `getKamisFlourPricePerKg`), and
the HTTP-facing entry points (`GET` of the oracle route,
`fetchLivePrices`).

JavaScript numbers are modelled as rationals (`ℚ`); `NaN` has no
representative, so a parse that would yield `NaN` is modelled as a
failed parse (`Option.none`).  Network effects are modelled by passing
each adapter's outcome explicitly: a fetch that may throw is an
`Except Unit` value, and per-commodity fetches inside a loop are
functions from the commodity string to such a value.
-/

/-- Product classification carried on Kamis quotes (`'flour' | 'grain'`). -/
inductive ProductType where
  | flour
  | grain
deriving DecidableEq, Repr

/-- The `DataSource` enum of `lib/types`. -/
inductive DataSource where
  | alphaVantage
  | kamis
  | tridge
  | worldBank
  | fallback
deriving DecidableEq, Repr

/-- The `Region` enum of `lib/types` (only passed through, never inspected). -/
inductive Region where
  | africa
  | latam
  | kenya
deriving DecidableEq, Repr

/-- The `KamisPrice` record produced by the Kamis scraper. -/
structure KamisPrice where
  commodity : String
  price : ℚ
  currency : String
  market : String
  date : String
  unit : Option String
  productType : Option ProductType
deriving DecidableEq, Repr

/-- The `TridgePrice` record (also the return shape of `convertKamisPriceToUSD`). -/
structure TridgePrice where
  commodity : String
  price : ℚ
  currency : String
  market : String
  date : String
deriving DecidableEq, Repr

/-- The `WorldBankPrice` record of `lib/types`. -/
structure WorldBankPrice where
  commodity : String
  price : ℚ
  currency : String
  date : String
deriving DecidableEq, Repr

/-- The `AlphaVantagePrice` record of the Alpha Vantage fetcher. -/
structure AlphaVantagePrice where
  commodity : String
  price : ℚ
  currency : String
  date : String
deriving DecidableEq, Repr

/-- The `PriceData` record of `lib/types`: the normalized output quote. -/
structure PriceData where
  commodity : String
  price : ℚ
  currency : String
  timestamp : String
  source : DataSource
  market : Option String
  unit : Option String
  productType : Option ProductType
deriving DecidableEq, Repr

/-- The `FetchOptions` argument of `fetchWheatMaizePrices`. -/
structure FetchOptions where
  commodity : Option String
  historical : Bool
  useMockTridge : Bool
  useMockKamis : Bool
  includeFlour : Bool
deriving DecidableEq, Repr

/-! ## String utilities mirroring the JavaScript operations used by the code -/

/-- JavaScript `a.includes(b)`: substring containment. -/
def strIncludes (s sub : String) : Bool :=
  (List.range (s.data.length + 1)).any (fun i => sub.data.isPrefixOf (s.data.drop i))

/-- Numeric value of a list of decimal digit characters (most significant first). -/
def digitsToNat (l : List Char) : Nat :=
  l.foldl (fun n c => n * 10 + (c.toNat - '0'.toNat)) 0

/-- Fractional part contributed by the digits after a decimal point. -/
def fracToRat (l : List Char) : ℚ :=
  (digitsToNat l : ℚ) / ((10 : ℚ) ^ l.length)

/-- Whitespace test used when skipping the leading blanks `parseFloat` ignores. -/
def isJsSpace (c : Char) : Bool :=
  c == ' ' || c == '\t' || c == '\n' || c == '\r'

/-- JavaScript `toUpperCase` (ASCII, which is all the code compares). -/
def jsToUpper (s : String) : String :=
  String.mk (s.data.map Char.toUpper)

/-- JavaScript `trim`: strip leading and trailing whitespace. -/
def jsTrim (s : String) : String :=
  String.mk (((s.data.dropWhile isJsSpace).reverse.dropWhile isJsSpace).reverse)

/-- Splitting on commas, as `symbolsParam.split(',')` does. -/
def splitOnCommaAux : List Char → List Char → List String
  | [], acc => [String.mk acc.reverse]
  | c :: rest, acc =>
    if c = ',' then String.mk acc.reverse :: splitOnCommaAux rest []
    else splitOnCommaAux rest (c :: acc)

/-- JavaScript `s.split(',')`. -/
def jsSplitOnComma (s : String) : List String :=
  splitOnCommaAux s.data []

/-- Parses a decimal numeral `[sign] digits [. digits]` at the head of the
character list, ignoring any trailing characters, as JavaScript `parseFloat`
does.  Returns `none` when no numeral is present (JavaScript `NaN`). -/
def parseFloatCore (l : List Char) : Option ℚ :=
  let body : List Char → Option ℚ := fun m =>
    let intPart := m.takeWhile Char.isDigit
    let rest := m.drop intPart.length
    match rest with
    | '.' :: r2 =>
      let fracPart := r2.takeWhile Char.isDigit
      if intPart.isEmpty && fracPart.isEmpty then none
      else some ((digitsToNat intPart : ℚ) + fracToRat fracPart)
    | _ => if intPart.isEmpty then none else some (digitsToNat intPart : ℚ)
  match l.dropWhile isJsSpace with
  | '-' :: m => (body m).map (fun q => -q)
  | '+' :: m => body m
  | m => body m

/-- JavaScript `parseFloat` on a string (exponent forms are not used by the code). -/
def jsParseFloat (s : String) : Option ℚ :=
  parseFloatCore s.data

/-- Character class of the scraping regex `[\d,]+`: a digit or a comma. -/
def isDigitOrComma (c : Char) : Bool :=
  c.isDigit || c == ','

/-- The match of the regex `[\d,]+\.?\d*` starting at the head of the list
(the head is assumed to be in `[\d,]`). -/
def numericTokenAt (l : List Char) : List Char :=
  let a := l.takeWhile isDigitOrComma
  match l.drop a.length with
  | '.' :: r2 => a ++ '.' :: r2.takeWhile Char.isDigit
  | _ => a

/-- Leftmost match of `[\d,]+\.?\d*` in the list, as `String.match` finds it. -/
def findNumericToken : List Char → Option (List Char)
  | [] => none
  | c :: rest =>
    if isDigitOrComma c then some (numericTokenAt (c :: rest))
    else findNumericToken rest

/-- Extracts the first numeric token of a string (the `match(/[\d,]+\.?\d*/)` call). -/
def extractNumericToken (s : String) : Option String :=
  (findNumericToken s.data).map (fun l => String.mk l)

/-- Numeric value of a matched token after `.replace(/,/g, '')` and `parseFloat`. -/
def parseMatchedToken (tok : String) : Option ℚ :=
  parseFloatCore (tok.data.filter (fun c => c ≠ ','))

/-- Rounding to two decimal places: `Math.round(x * 100) / 100`. -/
def round2 (q : ℚ) : ℚ :=
  (round (q * 100) : ℤ) / 100

/-! ## Kamis scraper and normalizer (`lib/scrapers/kamis-scraper.ts`) -/

/-- The `FLOUR_COMMODITIES` alias table for wheat flour. -/
def wheatFlourAliases : List String :=
  ["WHEAT FLOUR", "UNGA WA NGANO", "FLOUR WHEAT", "SIFTED WHEAT FLOUR"]

/-- The `FLOUR_COMMODITIES` alias table for maize flour. -/
def maizeFlourAliases : List String :=
  ["MAIZE FLOUR", "UNGA WA MAHINDI", "FLOUR MAIZE", "SIFTED MAIZE FLOUR", "POSHO", "UGALI FLOUR"]

/-- The `isFlourCommodity` check: case-insensitive substring containment in
either direction against the alias tables, wheat flour tried first. -/
def isFlourCommodity (commodityName : String) : Option String :=
  let upperName := jsToUpper commodityName
  if wheatFlourAliases.any (fun a =>
      strIncludes upperName a || strIncludes a upperName) then
    some "WHEAT FLOUR"
  else if maizeFlourAliases.any (fun a =>
      strIncludes upperName a || strIncludes a upperName) then
    some "MAIZE FLOUR"
  else
    none

/-- The unit normalization `kamisPrice.unit?.toUpperCase() || 'KG'`: a missing
or empty unit defaults to `KG`, anything else is uppercased. -/
def normUnit (u : Option String) : String :=
  let s := jsToUpper (u.getD "")
  if s = "" then "KG" else s

/-- The `convertKamisPriceToUSD` normalizer: KES→USD division by the exchange
rate, then unit scaling to USD per metric ton, then rounding to two decimals.
The exchange rate and the two bag sizes are the injectable configuration
values (defaults in the code: 154 KES/USD, 2 kg flour packet, 90 kg grain
bag). -/
def convertKamisPriceToUSD (kamisPrice : KamisPrice) (exchangeRate : ℚ)
    (flourBagSizeKg : ℚ) (bagSizeKg : ℚ) : TridgePrice :=
  let priceInUSD :=
    if kamisPrice.currency = "KES" then kamisPrice.price / exchangeRate
    else kamisPrice.price
  let unit := normUnit kamisPrice.unit
  let priceInUSD :=
    if unit = "KG" ∨ unit = "KILOGRAM" then
      priceInUSD * 1000
    else if unit = "BAG" then
      let bag := if kamisPrice.productType = some ProductType.flour then flourBagSizeKg else bagSizeKg
      priceInUSD / bag * 1000
    else if unit = "2KG" ∨ unit = "2 KG" then
      priceInUSD / 2 * 1000
    else if unit = "PACKET" ∨ unit = "PKT" then
      let packetSize : ℚ := if kamisPrice.productType = some ProductType.flour then 2 else 1
      priceInUSD / packetSize * 1000
    else
      priceInUSD
  { commodity := kamisPrice.commodity
    price := round2 priceInUSD
    currency := "USD"
    market := kamisPrice.market
    date := kamisPrice.date }

/-- Return shape of `getKamisFlourPricePerKg`. -/
structure PricePerKg where
  pricePerKg : ℚ
  currency : String
deriving DecidableEq, Repr

/-- The `getKamisFlourPricePerKg` helper: per-kilogram price in the source
currency.  Note its `BAG` handling: it divides by 2 for flour and by 1
otherwise, with no use of the 90 kg grain bag size. -/
def getKamisFlourPricePerKg (kamisPrice : KamisPrice) : PricePerKg :=
  let unit := normUnit kamisPrice.unit
  let pricePerKg :=
    if unit = "2KG" ∨ unit = "2 KG" then
      kamisPrice.price / 2
    else if unit = "BAG" ∨ unit = "PACKET" ∨ unit = "PKT" then
      let packetSize : ℚ := if kamisPrice.productType = some ProductType.flour then 2 else 1
      kamisPrice.price / packetSize
    else
      kamisPrice.price
  { pricePerKg := round2 pricePerKg
    currency := kamisPrice.currency }

/-- The `getMockKamisPrices` grain mock dataset (`now` stands for
`new Date().toISOString()`). -/
def getMockKamisPrices (now : String) : List KamisPrice :=
  [ { commodity := "WHEAT", price := 55, currency := "KES", market := "Nairobi",
      date := now, unit := some "KG", productType := some ProductType.grain },
    { commodity := "MAIZE", price := 45, currency := "KES", market := "Nairobi",
      date := now, unit := some "KG", productType := some ProductType.grain },
    { commodity := "WHEAT", price := 5400, currency := "KES", market := "Mombasa",
      date := now, unit := some "BAG", productType := some ProductType.grain },
    { commodity := "MAIZE", price := 4200, currency := "KES", market := "Kisumu",
      date := now, unit := some "BAG", productType := some ProductType.grain } ]

/-- The `getMockKamisFlourPrices` flour mock dataset. -/
def getMockKamisFlourPrices (now : String) : List KamisPrice :=
  [ { commodity := "WHEAT FLOUR", price := 200, currency := "KES", market := "Nairobi",
      date := now, unit := some "2KG", productType := some ProductType.flour },
    { commodity := "WHEAT FLOUR", price := 195, currency := "KES", market := "Mombasa",
      date := now, unit := some "2KG", productType := some ProductType.flour },
    { commodity := "WHEAT FLOUR", price := 210, currency := "KES", market := "Kisumu",
      date := now, unit := some "2KG", productType := some ProductType.flour },
    { commodity := "WHEAT FLOUR", price := 205, currency := "KES", market := "Nakuru",
      date := now, unit := some "2KG", productType := some ProductType.flour },
    { commodity := "MAIZE FLOUR", price := 145, currency := "KES", market := "Nairobi",
      date := now, unit := some "2KG", productType := some ProductType.flour },
    { commodity := "MAIZE FLOUR", price := 140, currency := "KES", market := "Mombasa",
      date := now, unit := some "2KG", productType := some ProductType.flour },
    { commodity := "MAIZE FLOUR", price := 150, currency := "KES", market := "Kisumu",
      date := now, unit := some "2KG", productType := some ProductType.flour },
    { commodity := "MAIZE FLOUR", price := 148, currency := "KES", market := "Eldoret",
      date := now, unit := some "2KG", productType := some ProductType.flour } ]

/-- One row of the scraped Kamis market table, as the list of its `<td>` cell
texts (`commodity | market | price | unit | date`). -/
abbrev KamisRow := List String

/-- Parsing of a single Kamis table row (the body of the `each` callback in
`scrapeKamisPrices`): rows with fewer than three cells, rows without a numeric
price token, rows whose parsed price is not positive, and rows excluded by the
`flourOnly`/`commodities` filters yield nothing. -/
def parseKamisRow (commodities : Option (List String)) (flourOnly : Bool) (now : String)
    (cells : KamisRow) : Option KamisPrice :=
  if cells.length ≥ 3 then
    let commodityName := jsToUpper (jsTrim (cells.getD 0 ""))
    let market := jsTrim (cells.getD 1 "")
    let priceText := jsTrim (cells.getD 2 "")
    match extractNumericToken priceText with
    | none => none
    | some tok =>
      let flourType := isFlourCommodity commodityName
      let shouldInclude :=
        if flourOnly then flourType.isSome
        else match commodities with
          | some cs => cs.any (fun c =>
              let upperC := jsToUpper c
              strIncludes commodityName upperC || strIncludes upperC commodityName)
          | none => true
      let normalizedCommodity := (flourType.getD commodityName)
      let productType := if flourType.isSome then ProductType.flour else ProductType.grain
      match parseMatchedToken tok with
      | none => none
      | some price =>
        if shouldInclude && price > 0 then
          let currency := if strIncludes priceText "USD" || strIncludes priceText "$" then "USD" else "KES"
          let unit :=
            if cells.length ≥ 4 then
              let unitText := jsToUpper (jsTrim (cells.getD 3 ""))
              if unitText ≠ "" then unitText else "KG"
            else "KG"
          some { commodity := normalizedCommodity
                 price := price
                 currency := currency
                 market := if market = "" then "Nairobi" else market
                 date := now
                 unit := some unit
                 productType := some productType }
        else none
  else none

/-- The `scrapeKamisPrices` adapter.  Its network interaction is abstracted to
`page`: `.error` when the HTTP request threw, `.ok none` when no selector
found a table with more than one row, `.ok (some rows)` otherwise.  On failure
or a missing table it returns the mock dataset (flour or grain according to
`flourOnly`), and when parsing yields nothing and `flourOnly` is set it also
falls back to the flour mock dataset. -/
def scrapeKamisPrices (page : Except Unit (Option (List KamisRow)))
    (commodities : Option (List String)) (flourOnly : Bool) (now : String) : List KamisPrice :=
  match page with
  | .error _ => if flourOnly then getMockKamisFlourPrices now else getMockKamisPrices now
  | .ok none => if flourOnly then getMockKamisFlourPrices now else getMockKamisPrices now
  | .ok (some rows) =>
    let prices := rows.filterMap (parseKamisRow commodities flourOnly now)
    if prices.isEmpty && flourOnly then getMockKamisFlourPrices now else prices

/-! ## Tridge scraper (`lib/scrapers/tridge-scraper.ts`) -/

/-- The selector loop of `scrapeTridgePrice`: the page texts found by the four
price selectors are scanned in order; the first non-empty text containing a
numeric token ends the loop.  The currency starts as `USD` and is only ever
reassigned to `USD` (when the text mentions `USD` or `$`), so it can never be
anything else. -/
def tridgeScanSelectors : List String → Option (Option ℚ × String)
  | [] => none
  | t :: rest =>
    let priceText := jsTrim t
    if priceText ≠ "" then
      match extractNumericToken priceText with
      | some tok =>
        let currency := if strIncludes priceText "USD" || strIncludes priceText "$" then "USD" else "USD"
        some (parseMatchedToken tok, currency)
      | none => tridgeScanSelectors rest
    else tridgeScanSelectors rest

/-- The `scrapeTridgePrice` adapter on one commodity page.  `page` carries the
texts of the four price selectors (`.error` when the HTTP request threw).
A quote is produced only when a positive price was extracted. -/
def scrapeTridgePrice (commodity : String) (page : Except Unit (List String))
    (now : String) : Option TridgePrice :=
  match page with
  | .error _ => none
  | .ok texts =>
    match tridgeScanSelectors texts with
    | some (some price, currency) =>
      if price > 0 then
        some { commodity := commodity, price := price, currency := currency,
               market := "Kenya", date := now }
      else none
    | some (none, _) => none
    | none => none

/-- The `getMockTridgePrice` mock data (the zero branch is unreachable: the
TypeScript signature confines the commodity to `WHEAT | MAIZE | CORN`). -/
def getMockTridgePrice (commodity : String) (now : String) : TridgePrice :=
  let mockPrice : ℚ :=
    if commodity = "WHEAT" then 285.5
    else if commodity = "MAIZE" then 225.75
    else if commodity = "CORN" then 225.75
    else 0
  { commodity := commodity, price := mockPrice, currency := "USD",
    market := "Nairobi", date := now }

/-! ## World Bank and Alpha Vantage fetchers -/

/-- The `fetchWorldBankPrice` adapter.  `response` abstracts the parsed API
payload to the latest observation, a `(value, date)` pair of strings, when the
response array has the expected shape (`.error` models a thrown request).
The code applies `parseFloat` to the value with no further check; a value
without a numeric prefix would give `NaN`, which the ℚ model renders as no
quote. -/
def fetchWorldBankPrice (commodity : String)
    (response : Except Unit (Option (String × String))) : Option WorldBankPrice :=
  match response with
  | .error _ => none
  | .ok none => none
  | .ok (some (valueText, date)) =>
    match jsParseFloat valueText with
    | some price => some { commodity := commodity, price := price, currency := "USD", date := date }
    | none => none

/-- The `fetchAlphaVantagePrices` adapter: one independent lookup per
commodity, keeping the fulfilled non-null ones.  Each per-commodity lookup
(`fetchAlphaVantagePrice`) either yields no quote or a quote whose commodity
is the requested one, whose currency is `USD`, and whose price is the
`parseFloat` of the API's price field, abstracted here as `quote c`. -/
def fetchAlphaVantagePrices (commodities : List String) (quote : String → Option ℚ)
    (now : String) : List AlphaVantagePrice :=
  commodities.filterMap (fun c => (quote c).map (fun p =>
    { commodity := c, price := p, currency := "USD", date := now }))

/-! ## Fallback orchestrator (`lib/services/wheat-maize-fetcher.ts`) -/

/-- The static `FALLBACK_PRICES` table (USD per MT). -/
def FALLBACK_PRICES : List (String × ℚ) :=
  [("WHEAT", 280), ("MAIZE", 220), ("WHEAT FLOUR", 650), ("MAIZE FLOUR", 480)]

/-- Lookup `FALLBACK_PRICES[commodity]`. -/
def fallbackLookup (c : String) : Option ℚ :=
  (FALLBACK_PRICES.find? (fun p => p.1 == c)).map (fun p => p.2)

/-- The process environment and network behaviour a `fetchWheatMaizePrices`
call runs against: configuration flags and conversion constants, plus the
outcome of each adapter invocation.  Per-commodity fetch outcomes are
functions of the loop commodity because the code issues one call per
unresolved commodity. -/
structure Env where
  alphaKey : Bool
  envMockTridge : Bool
  envMockKamis : Bool
  kesToUsdRate : ℚ
  flourBagKg : ℚ
  grainBagKg : ℚ
  now : String
  alphaQuote : String → Option ℚ
  kamisFlourFetch : Except Unit (List KamisPrice)
  kamisGrainFetch : String → Except Unit (List KamisPrice)
  tridgeFetch : String → Except Unit (List TridgePrice)
  worldBankFetch : String → Except Unit (List WorldBankPrice)

/-- Commodity resolution from `FetchOptions`: an explicit commodity, else all
four when flour is included, else the two grains. -/
def requestedCommodities (options : FetchOptions) : List String :=
  match options.commodity with
  | some c => [c]
  | none =>
    if options.includeFlour then ["WHEAT", "MAIZE", "WHEAT FLOUR", "MAIZE FLOUR"]
    else ["WHEAT", "MAIZE"]

/-- One iteration of the orchestrator's per-commodity loops: skip the
commodity when the accumulator already holds a quote for it, otherwise consult
the source (`f`); a thrown fetch (`.error`) or a missing quote leaves the
accumulator unchanged, a quote is appended. -/
def resolveStep (f : String → Except Unit (Option PriceData))
    (acc : List PriceData) (c : String) : List PriceData :=
  if (acc.find? (fun r => r.commodity == c)).isSome then acc
  else
    match f c with
    | .error _ => acc
    | .ok none => acc
    | .ok (some entry) => acc ++ [entry]

/-- The shared shape of the orchestrator's per-commodity loops, one
`resolveStep` per requested commodity. -/
def resolveFold (f : String → Except Unit (Option PriceData)) (cs : List String)
    (results : List PriceData) : List PriceData :=
  cs.foldl (resolveStep f) results

/-- The `PriceData` pushed for a converted Kamis quote. -/
def kamisToPriceData (converted : TridgePrice) (pt : ProductType) : PriceData :=
  { commodity := converted.commodity, price := converted.price,
    currency := converted.currency, timestamp := converted.date,
    source := DataSource.kamis, market := some converted.market,
    unit := some "MT", productType := some pt }

/-- The `PriceData` pushed for a Tridge quote. -/
def tridgeToPriceData (tp : TridgePrice) : PriceData :=
  { commodity := tp.commodity, price := tp.price, currency := tp.currency,
    timestamp := tp.date, source := DataSource.tridge, market := some tp.market,
    unit := some "MT", productType := some ProductType.grain }

/-- The `PriceData` pushed for a World Bank quote (timestamp is the call time,
not the observation date). -/
def worldBankToPriceData (wb : WorldBankPrice) (now : String) : PriceData :=
  { commodity := wb.commodity, price := wb.price, currency := wb.currency,
    timestamp := now, source := DataSource.worldBank, market := none,
    unit := some "MT", productType := some ProductType.grain }

/-- The `PriceData` pushed for an Alpha Vantage quote. -/
def alphaToPriceData (ap : AlphaVantagePrice) : PriceData :=
  { commodity := ap.commodity, price := ap.price, currency := ap.currency,
    timestamp := ap.date, source := DataSource.alphaVantage, market := none,
    unit := some "MT", productType := some ProductType.grain }

/-- Stage 1: Alpha Vantage, grains only, skipped without an API key.  Every
returned quote is pushed with no dedup check (at most one exists per requested
commodity because the lookups run over the distinct request list). -/
def alphaStage (env : Env) (grainCommodities : List String) : List PriceData :=
  if env.alphaKey && !grainCommodities.isEmpty then
    (fetchAlphaVantagePrices grainCommodities env.alphaQuote env.now).map alphaToPriceData
  else []

/-- The entry the Kamis flour pass would push for one flour commodity: the
first matching scraped price, converted to USD/MT. -/
def kamisFlourEntry (env : Env) (kamisFlourPrices : List KamisPrice) (c : String) :
    Option PriceData :=
  ((kamisFlourPrices.filter (fun p => p.commodity == c)).head?).map (fun mp =>
    kamisToPriceData (convertKamisPriceToUSD mp env.kesToUsdRate env.flourBagKg env.grainBagKg)
      ProductType.flour)

/-- Stage 2a: the Kamis flour pass.  One fetch (mock or scrape) feeds a
per-commodity resolution loop; a thrown fetch leaves the accumulator as it
was. -/
def kamisFlourStage (env : Env) (useMockKamis : Bool) (flourCommodities : List String)
    (results : List PriceData) : List PriceData :=
  if flourCommodities.isEmpty then results
  else
    match (if useMockKamis then Except.ok (getMockKamisFlourPrices env.now) else env.kamisFlourFetch) with
    | .error _ => results
    | .ok kamisFlourPrices =>
      resolveFold (fun c => Except.ok (kamisFlourEntry env kamisFlourPrices c))
        flourCommodities results

/-- Stage 2b: the Kamis grain pass, one fetch per unresolved grain commodity. -/
def kamisGrainResolve (env : Env) (useMockKamis : Bool) (c : String) :
    Except Unit (Option PriceData) :=
  (if useMockKamis then Except.ok (getMockKamisPrices env.now) else env.kamisGrainFetch c).map
    (fun kamisPrices => (kamisPrices.find? (fun p => p.commodity == c)).map (fun mp =>
      kamisToPriceData (convertKamisPriceToUSD mp env.kesToUsdRate env.flourBagKg env.grainBagKg)
        ProductType.grain))

/-- Stage 3: Tridge, one fetch per unresolved grain commodity (the mock path
always yields a quote). -/
def tridgeResolve (env : Env) (useMockTridge : Bool) (c : String) :
    Except Unit (Option PriceData) :=
  if useMockTridge then Except.ok (some (tridgeToPriceData (getMockTridgePrice c env.now)))
  else (env.tridgeFetch c).map (fun l => (l.find? (fun p => p.commodity == c)).map tridgeToPriceData)

/-- Stage 4: World Bank, one fetch per unresolved grain commodity. -/
def worldBankResolve (env : Env) (c : String) : Except Unit (Option PriceData) :=
  (env.worldBankFetch c).map (fun l =>
    (l.find? (fun p => p.commodity == c)).map (fun wb => worldBankToPriceData wb env.now))

/-- Stage 5: the static fallback table. -/
def fallbackResolve (env : Env) (c : String) : Except Unit (Option PriceData) :=
  Except.ok ((fallbackLookup c).map (fun v =>
    { commodity := c, price := v, currency := "USD", timestamp := env.now,
      source := DataSource.fallback, market := none, unit := some "MT",
      productType := some (if strIncludes c "FLOUR" then ProductType.flour else ProductType.grain) }))

/-- The fallback orchestrator `fetchWheatMaizePrices`: resolve the request,
split flour from grain, then walk the priority chain — Alpha Vantage, the
Kamis flour pass, the Kamis grain pass, Tridge, World Bank, and the static
fallback table — skipping commodities already resolved. -/
def fetchWheatMaizePrices (options : FetchOptions) (env : Env) : List PriceData :=
  let commodities := requestedCommodities options
  let useMockTridge := options.useMockTridge || env.envMockTridge
  let useMockKamis := options.useMockKamis || env.envMockKamis
  let flourCommodities := commodities.filter (fun c => strIncludes c "FLOUR")
  let grainCommodities := commodities.filter (fun c => !strIncludes c "FLOUR")
  let results := alphaStage env grainCommodities
  let results := kamisFlourStage env useMockKamis flourCommodities results
  let results := resolveFold (kamisGrainResolve env useMockKamis) grainCommodities results
  let results := resolveFold (tridgeResolve env useMockTridge) grainCommodities results
  let results := resolveFold (worldBankResolve env) grainCommodities results
  resolveFold (fallbackResolve env) commodities results

/-! ## Caller-facing entry points -/

/-- The commodity identifiers `fetchLivePrices` accepts after normalization. -/
def allValidCommodities : List String :=
  ["WHEAT", "MAIZE", "WHEAT FLOUR", "MAIZE FLOUR"]

/-- Symbol normalization in `fetchLivePrices` (`lib/live-prices.ts`):
uppercase, trim, and map the `CORN` and flour-name aliases to canonical
names. -/
def normalizeSymbol (s : String) : String :=
  let upper := jsTrim (jsToUpper s)
  if upper = "CORN" then "MAIZE"
  else if upper = "WHEAT-FLOUR" ∨ upper = "WHEATFLOUR" then "WHEAT FLOUR"
  else if upper = "MAIZE-FLOUR" ∨ upper = "MAIZEFLOUR" ∨ upper = "CORN-FLOUR" then "MAIZE FLOUR"
  else upper

/-- The `fetchLivePrices` entry point: normalize and filter the requested
symbols (silently discarding unrecognized ones), then fetch each commodity in
turn.  The region filter returns all prices either way. -/
def fetchLivePrices (symbols : Option (List String)) (region : Option Region)
    (includeFlour : Bool) (env : Env) : List PriceData :=
  let commodities := if includeFlour then allValidCommodities else ["WHEAT", "MAIZE"]
  let commodities :=
    match symbols with
    | some syms =>
      if !syms.isEmpty then (syms.map normalizeSymbol).filter (fun s => allValidCommodities.contains s)
      else commodities
    | none => commodities
  let allPrices := commodities.foldl (fun acc c =>
    acc ++ fetchWheatMaizePrices
      { commodity := some c, historical := false, useMockTridge := false,
        useMockKamis := false, includeFlour := false } env) []
  match region with
  | some _ => allPrices
  | none => allPrices

/-- Outcome of an HTTP route handler: a success payload or a 400 validation
rejection with its error message. -/
inductive RouteResponse where
  | ok (data : List PriceData)
  | badRequest (error : String)
deriving DecidableEq, Repr

/-- The `GET` handler of the wheat-maize oracle route: uppercase the
`commodity` query parameter, reject anything other than `WHEAT` or `MAIZE`
with a 400, otherwise fetch. -/
def routeGET (commodityParam : Option String) (env : Env) : RouteResponse :=
  let commodity := commodityParam.map jsToUpper
  match commodity with
  | some c =>
    if c ≠ "WHEAT" ∧ c ≠ "MAIZE" then
      RouteResponse.badRequest "Invalid commodity. Must be WHEAT or MAIZE"
    else
      RouteResponse.ok (fetchWheatMaizePrices
        { commodity := some c, historical := false, useMockTridge := false,
          useMockKamis := false, includeFlour := false } env)
  | none =>
    RouteResponse.ok (fetchWheatMaizePrices
      { commodity := none, historical := false, useMockTridge := false,
        useMockKamis := false, includeFlour := false } env)

/-- The `GET` handler of the live-prices route: split the `symbols` parameter
on commas, parse the region, and return whatever `fetchLivePrices` produces —
it performs no commodity validation of its own. -/
def liveRouteGET (symbolsParam : Option String) (regionParam : Option String)
    (env : Env) : RouteResponse :=
  let symbols := symbolsParam.map (fun sp => (jsSplitOnComma sp).map jsTrim)
  let region := regionParam.bind (fun rp =>
    let upperRegion := jsToUpper rp
    if upperRegion = "AFRICA" then some Region.africa
    else if upperRegion = "LATAM" then some Region.latam
    else none)
  RouteResponse.ok (fetchLivePrices symbols region false env)

/-! ## Generic facts about the per-commodity resolution loops -/

theorem resolveStep_cases (f : String → Except Unit (Option PriceData))
    (acc : List PriceData) (c : String) :
    resolveStep f acc c = acc ∨
    ∃ e, resolveStep f acc c = acc ++ [e] ∧ f c = Except.ok (some e) ∧
      acc.find? (fun r => r.commodity == c) = none := by
  unfold resolveStep
  rcases h : acc.find? (fun r => r.commodity == c) with _ | r
  · rcases hf : f c with _ | o
    · left; simp [h]
    · rcases o with _ | e
      · left; simp [h]
      · right; exact ⟨e, by simp [h], rfl, h⟩
  · left; simp [h]

theorem resolveFold_cons (f : String → Except Unit (Option PriceData))
    (c : String) (cs : List String) (res : List PriceData) :
    resolveFold f (c :: cs) res = resolveFold f cs (resolveStep f res c) := rfl

theorem resolveFold_append_only (f : String → Except Unit (Option PriceData)) :
    ∀ (cs : List String) (res : List PriceData),
      ∃ t, resolveFold f cs res = res ++ t := by
  intro cs
  induction cs with
  | nil => exact fun res => ⟨[], by simp [resolveFold]⟩
  | cons c cs ih =>
    intro res
    rcases resolveStep_cases f res c with h | ⟨e, h, _, _⟩
    · rcases ih (resolveStep f res c) with ⟨t, ht⟩
      exact ⟨t, by rw [resolveFold_cons, ht, h]⟩
    · rcases ih (resolveStep f res c) with ⟨t, ht⟩
      exact ⟨[e] ++ t, by rw [resolveFold_cons, ht, h, List.append_assoc]⟩

theorem find?_isSome_append {l t : List PriceData} {p : PriceData → Bool}
    (h : (l.find? p).isSome) : ((l ++ t).find? p).isSome := by
  rw [List.find?_append]
  rcases hl : l.find? p with _ | r
  · rw [hl] at h; simp at h
  · simp [hl]

theorem resolveFold_isSome_mono (f : String → Except Unit (Option PriceData))
    (cs : List String) (res : List PriceData) (x : String)
    (h : (res.find? (fun r => r.commodity == x)).isSome) :
    ((resolveFold f cs res).find? (fun r => r.commodity == x)).isSome := by
  rcases resolveFold_append_only f cs res with ⟨t, ht⟩
  rw [ht]; exact find?_isSome_append h

theorem resolveFold_preserve (P : PriceData → Prop)
    (f : String → Except Unit (Option PriceData)) :
    ∀ (cs : List String) (res : List PriceData), (∀ q ∈ res, P q) →
      (∀ c ∈ cs, ∀ e, f c = Except.ok (some e) → P e) →
      ∀ q ∈ resolveFold f cs res, P q := by
  intro cs
  induction cs with
  | nil => intro res h _ q hq; exact h q hq
  | cons c cs ih =>
    intro res hres hf q hq
    rw [resolveFold_cons] at hq
    refine ih (resolveStep f res c) ?_
      (fun c' hc' e he => hf c' (List.mem_cons_of_mem _ hc') e he) q hq
    rcases resolveStep_cases f res c with h | ⟨e, h, hfe, _⟩
    · rw [h]; exact hres
    · rw [h]
      intro q' hq'
      rcases List.mem_append.mp hq' with h1 | h2
      · exact hres q' h1
      · have h2' := List.mem_singleton.mp h2
        subst h2'
        exact hf c (List.mem_cons_self _ _) q' hfe

theorem resolveFold_mem (f : String → Except Unit (Option PriceData)) :
    ∀ (cs : List String) (res : List PriceData) (q : PriceData),
      (∀ c ∈ cs, ∀ e, f c = Except.ok (some e) → e.commodity = c) →
      q ∈ resolveFold f cs res → q ∈ res ∨ q.commodity ∈ cs := by
  intro cs
  induction cs with
  | nil => intro res q _ hq; left; simpa [resolveFold] using hq
  | cons c cs ih =>
    intro res q hf hq
    rw [resolveFold_cons] at hq
    rcases ih (resolveStep f res c) q
        (fun c' hc' e he => hf c' (List.mem_cons_of_mem _ hc') e he) hq with hmem | htail
    · rcases resolveStep_cases f res c with h | ⟨e, h, hfe, _⟩
      · rw [h] at hmem; left; exact hmem
      · rw [h] at hmem
        rcases List.mem_append.mp hmem with h1 | h2
        · left; exact h1
        · right
          have h2' := List.mem_singleton.mp h2
          subst h2'
          rw [hf c (List.mem_cons_self _ _) q hfe]
          exact List.mem_cons_self _ _
    · right; exact List.mem_cons_of_mem _ htail

theorem resolveFold_resolved_stable (f : String → Except Unit (Option PriceData)) :
    ∀ (cs : List String) (res : List PriceData) (x : String),
      (∀ c ∈ cs, ∀ e, f c = Except.ok (some e) → e.commodity = c) →
      (res.find? (fun r => r.commodity == x)).isSome →
      ∀ q ∈ resolveFold f cs res, q.commodity = x → q ∈ res := by
  intro cs
  induction cs with
  | nil => intro res x _ _ q hq _; simpa [resolveFold] using hq
  | cons c cs ih =>
    intro res x hf hx q hq hqx
    rw [resolveFold_cons] at hq
    rcases resolveStep_cases f res c with h | ⟨e, h, hfe, hnone⟩
    · rw [h] at hq
      exact ih res x (fun c' hc' e he => hf c' (List.mem_cons_of_mem _ hc') e he) hx q hq hqx
    · rw [h] at hq
      have hq' := ih (res ++ [e]) x
        (fun c' hc' e' he' => hf c' (List.mem_cons_of_mem _ hc') e' he')
        (find?_isSome_append hx) q hq hqx
      rcases List.mem_append.mp hq' with h1 | h2
      · exact h1
      · exfalso
        have h2' := List.mem_singleton.mp h2
        subst h2'
        have hcx : q.commodity = c := hf c (List.mem_cons_self _ _) q hfe
        rw [hqx] at hcx
        subst hcx
        rw [hnone] at hx
        simp at hx

theorem resolveFold_resolves (f : String → Except Unit (Option PriceData)) :
    ∀ (cs : List String) (res : List PriceData) (c : String),
      (∀ c' ∈ cs, ∀ e, f c' = Except.ok (some e) → e.commodity = c') →
      c ∈ cs → (∃ e, f c = Except.ok (some e)) →
      ((resolveFold f cs res).find? (fun r => r.commodity == c)).isSome := by
  intro cs
  induction cs with
  | nil => intro res c _ hc; cases hc
  | cons c' cs ih =>
    intro res c hf hc he
    rw [resolveFold_cons]
    rcases List.mem_cons.mp hc with rfl | hmem
    · have hstep : ((resolveStep f res c).find? (fun r => r.commodity == c)).isSome := by
        rcases h : res.find? (fun r => r.commodity == c) with _ | r
        · rcases he with ⟨e, hfe⟩
          have hec : e.commodity = c := hf c (List.mem_cons_self _ _) e hfe
          unfold resolveStep
          rw [h, hfe]
          simp [List.find?_append, h, hec]
        · unfold resolveStep
          rw [h]
          simp [h]
      exact resolveFold_isSome_mono f cs _ c hstep
    · exact ih (resolveStep f res c') c
        (fun c'' hc'' e he' => hf c'' (List.mem_cons_of_mem _ hc'') e he') hmem he

theorem resolveFold_nodup (f : String → Except Unit (Option PriceData)) :
    ∀ (cs : List String) (res : List PriceData),
      (∀ c ∈ cs, ∀ e, f c = Except.ok (some e) → e.commodity = c) →
      (res.map (fun r => r.commodity)).Nodup →
      ((resolveFold f cs res).map (fun r => r.commodity)).Nodup := by
  intro cs
  induction cs with
  | nil => intro res _ h; simpa [resolveFold] using h
  | cons c cs ih =>
    intro res hf h
    rw [resolveFold_cons]
    refine ih (resolveStep f res c)
      (fun c' hc' e he => hf c' (List.mem_cons_of_mem _ hc') e he) ?_
    rcases resolveStep_cases f res c with hs | ⟨e, hs, hfe, hnone⟩
    · rw [hs]; exact h
    · rw [hs, List.map_append]
      rw [List.nodup_append]
      refine ⟨h, by simp, ?_⟩
      intro a ha hb
      simp only [List.map_cons, List.map_nil, List.mem_singleton] at hb
      subst hb
      have hec : e.commodity = c := hf c (List.mem_cons_self _ _) e hfe
      rcases List.mem_map.mp ha with ⟨r, hr, hrc⟩
      have := List.find?_eq_none.mp hnone r hr
      exact this (by rw [hrc, hec]; exact beq_self_eq_true _)

/-! ## Facts about the normalizer and the scrapers -/

theorem convertKamisPriceToUSD_commodity (k : KamisPrice) (r fb gb : ℚ) :
    (convertKamisPriceToUSD k r fb gb).commodity = k.commodity := rfl

theorem convertKamisPriceToUSD_currency (k : KamisPrice) (r fb gb : ℚ) :
    (convertKamisPriceToUSD k r fb gb).currency = "USD" := rfl

/-- C5 main statement, proved over the embedding. -/
theorem convertKamisPriceToUSD_kg_kes (k : KamisPrice) (r fb gb : ℚ)
    (hc : k.currency = "KES") (hu : k.unit = some "KG") (hr : 0 < r) :
    (convertKamisPriceToUSD k r fb gb).price = round2 (k.price / r * 1000) ∧
    (convertKamisPriceToUSD k r fb gb).currency = "USD" := by
  have hnu : normUnit (some "KG") = "KG" := by decide
  refine ⟨?_, rfl⟩
  unfold convertKamisPriceToUSD
  rw [hc, hu, hnu]
  simp

/-- C6 main statement, proved over the embedding (default bag sizes). -/
theorem convertKamisPriceToUSD_bag (k : KamisPrice) (r : ℚ)
    (hu : k.unit = some "BAG") (hr : 0 < r) :
    (convertKamisPriceToUSD k r 2 90).price =
      round2 ((if k.currency = "KES" then k.price / r else k.price) /
        (if k.productType = some ProductType.flour then (2:ℚ) else 90) * 1000) := by
  have hnu : normUnit (some "BAG") = "BAG" := by decide
  unfold convertKamisPriceToUSD
  rw [hu, hnu]
  simp

/-- C7 (amended) main statement: on the units where the two operations do share
their divisor logic — `2KG`, `2 KG`, `PACKET`, `PKT`, and `BAG` for flour —
there is one divisor `d` such that `getKamisFlourPricePerKg` returns
`round2 (price / d)` in the source currency while `convertKamisPriceToUSD`
returns `round2 (currencyConverted / d * 1000)`. -/
theorem getKamisFlourPricePerKg_shares_divisor (k : KamisPrice) (r : ℚ) (hr : 0 < r)
    (hu : normUnit k.unit = "2KG" ∨ normUnit k.unit = "2 KG" ∨ normUnit k.unit = "PACKET" ∨
      normUnit k.unit = "PKT" ∨ (normUnit k.unit = "BAG" ∧ k.productType = some ProductType.flour)) :
    ∃ d : ℚ, (getKamisFlourPricePerKg k).pricePerKg = round2 (k.price / d) ∧
      (convertKamisPriceToUSD k r 2 90).price =
        round2 ((if k.currency = "KES" then k.price / r else k.price) / d * 1000) ∧
      (getKamisFlourPricePerKg k).currency = k.currency := by
  rcases hu with h | h | h | h | ⟨h, hpt⟩
  · exact ⟨2, by unfold getKamisFlourPricePerKg; rw [h]; simp,
      by unfold convertKamisPriceToUSD; rw [h]; simp, rfl⟩
  · exact ⟨2, by unfold getKamisFlourPricePerKg; rw [h]; simp,
      by unfold convertKamisPriceToUSD; rw [h]; simp, rfl⟩
  · exact ⟨if k.productType = some ProductType.flour then 2 else 1,
      by unfold getKamisFlourPricePerKg; rw [h]; simp,
      by unfold convertKamisPriceToUSD; rw [h]; simp, rfl⟩
  · exact ⟨if k.productType = some ProductType.flour then 2 else 1,
      by unfold getKamisFlourPricePerKg; rw [h]; simp,
      by unfold convertKamisPriceToUSD; rw [h]; simp, rfl⟩
  · exact ⟨2, by unfold getKamisFlourPricePerKg; rw [h, hpt]; simp,
      by unfold convertKamisPriceToUSD; rw [h, hpt]; simp, rfl⟩

/-- C7 counterexample input: a grain quote priced per `BAG`.
`convertKamisPriceToUSD` divides it by the 90 kg grain bag size, but
`getKamisFlourPricePerKg` divides it by 1, so the "same divisor logic" reading
fails on `BAG`. -/
theorem getKamisFlourPricePerKg_bag_grain_cex :
    (getKamisFlourPricePerKg
      ⟨"MAIZE", 90, "KES", "Nairobi", "2024-12-01", some "BAG", some ProductType.grain⟩).pricePerKg ≠
      round2 ((90 : ℚ) / 90) ∧
    (convertKamisPriceToUSD
      ⟨"MAIZE", 90, "KES", "Nairobi", "2024-12-01", some "BAG", some ProductType.grain⟩ 1 2 90).price =
      round2 ((90 : ℚ) / 1 / 90 * 1000) := by
  have hnu : normUnit (some "BAG") = "BAG" := by decide
  constructor
  · unfold getKamisFlourPricePerKg
    rw [hnu]
    dsimp only
    rw [if_neg (by decide : ¬(("BAG":String) = "2KG" ∨ ("BAG":String) = "2 KG"))]
    rw [if_pos (Or.inl rfl : ("BAG":String) = "BAG" ∨ ("BAG":String) = "PACKET" ∨ ("BAG":String) = "PKT")]
    rw [if_neg (by decide : ¬(some ProductType.grain = some ProductType.flour))]
    norm_num [round2, round_eq]
  · unfold convertKamisPriceToUSD
    rw [hnu]
    dsimp only
    rw [if_pos (rfl : ("KES":String) = "KES")]
    rw [if_neg (by decide : ¬(("BAG":String) = "KG" ∨ ("BAG":String) = "KILOGRAM"))]
    rw [if_pos (rfl : ("BAG":String) = "BAG")]
    rw [if_neg (by decide : ¬(some ProductType.grain = some ProductType.flour))]

/-- C8: when the Kamis page request throws or no table with more than one row
is found, the scraper returns the (non-empty) mock dataset matching the
`flourOnly` flag. -/
theorem scrapeKamisPrices_failure_mock (page : Except Unit (Option (List KamisRow)))
    (commodities : Option (List String)) (flourOnly : Bool) (now : String)
    (h : page = Except.error () ∨ page = Except.ok none) :
    scrapeKamisPrices page commodities flourOnly now =
      (if flourOnly then getMockKamisFlourPrices now else getMockKamisPrices now) ∧
    (if flourOnly then getMockKamisFlourPrices now else getMockKamisPrices now) ≠ [] := by
  constructor
  · rcases h with rfl | rfl <;> rfl
  · cases flourOnly <;> simp [getMockKamisPrices, getMockKamisFlourPrices]

/-- C8 witness: a thrown request in grain mode returns the grain mock data. -/
theorem scrapeKamisPrices_failure_mock_witness :
    scrapeKamisPrices (Except.error ()) none false "2024-12-01" =
      getMockKamisPrices "2024-12-01" ∧ getMockKamisPrices "2024-12-01" ≠ [] := by
  have h := scrapeKamisPrices_failure_mock (Except.error ()) none false "2024-12-01" (Or.inl rfl)
  simpa using h

/-- Helper for C10: the selector scan can only ever report the currency `USD`. -/
theorem tridgeScanSelectors_currency :
    ∀ (texts : List String) (op : Option ℚ) (cur : String),
      tridgeScanSelectors texts = some (op, cur) → cur = "USD" := by
  intro texts
  induction texts with
  | nil => intro op cur h; cases h
  | cons t rest ih =>
    intro op cur h
    unfold tridgeScanSelectors at h
    by_cases ht : jsTrim t ≠ ""
    · rw [if_pos ht] at h
      rcases he : extractNumericToken (jsTrim t) with _ | tok
      · rw [he] at h; exact ih op cur h
      · rw [he] at h
        injection h with h'
        injection h' with _ h2
        split at h2 <;> exact h2.symm
    · rw [if_neg ht] at h
      exact ih op cur h

/-- C10: every quote produced by `scrapeTridgePrice` carries currency `USD`,
whatever the page text said. -/
theorem scrapeTridgePrice_currency_usd (commodity : String)
    (page : Except Unit (List String)) (now : String) (t : TridgePrice)
    (h : scrapeTridgePrice commodity page now = some t) :
    t.currency = "USD" := by
  rcases page with u | texts
  · simp [scrapeTridgePrice] at h
  · rcases hs : tridgeScanSelectors texts with _ | ⟨op, cur⟩
    · simp [scrapeTridgePrice, hs] at h
    · have hcur := tridgeScanSelectors_currency texts op cur hs
      subst hcur
      rcases op with _ | price
      · simp [scrapeTridgePrice, hs] at h
      · simp only [scrapeTridgePrice, hs] at h
        split at h
        · injection h with h'
          rw [← h']
        · cases h

/-- C10 witness: a page text with a KES-denominated figure still yields a quote
labeled `USD`. -/
theorem scrapeTridgePrice_currency_usd_witness :
    scrapeTridgePrice "WHEAT" (Except.ok ["", "55 KES"]) "T" =
      some ⟨"WHEAT", 55, "USD", "Kenya", "T"⟩ ∧
    (⟨"WHEAT", 55, "USD", "Kenya", "T"⟩ : TridgePrice).currency = "USD" :=
  ⟨by decide, scrapeTridgePrice_currency_usd "WHEAT" (Except.ok ["", "55 KES"]) "T" _ (by decide)⟩

/-- C5 witness input: the spec's worked example. -/
def kgKesSample : KamisPrice :=
  ⟨"WHEAT", 55, "KES", "Nairobi", "2024-12-01", some "KG", some ProductType.grain⟩

/-- C5 witness: 55 KES/KG at rate 150 converts to 366.67 USD/MT. -/
theorem convertKamisPriceToUSD_kg_kes_witness :
    (convertKamisPriceToUSD kgKesSample 150 2 90).price = 366.67 ∧
    (convertKamisPriceToUSD kgKesSample 150 2 90).currency = "USD" := by
  have h := convertKamisPriceToUSD_kg_kes kgKesSample 150 2 90 rfl rfl (by norm_num)
  refine ⟨?_, h.2⟩
  rw [h.1]
  norm_num [kgKesSample, round2, round_eq]

/-- C6 witness input: the spec's worked bag example. -/
def bagKesSample : KamisPrice :=
  ⟨"WHEAT", 5400, "KES", "Mombasa", "2024-12-01", some "BAG", some ProductType.grain⟩

/-- C6 witness: a 5400 KES grain bag at rate 150 converts to 400 USD/MT. -/
theorem convertKamisPriceToUSD_bag_witness :
    (convertKamisPriceToUSD bagKesSample 150 2 90).price = 400 := by
  have h := convertKamisPriceToUSD_bag bagKesSample 150 rfl (by norm_num)
  rw [h]
  simp [bagKesSample]
  norm_num [round2, round_eq]

/-- C7 witness input: a flour packet quote in the `2KG` unit. -/
def flourPacketSample : KamisPrice :=
  ⟨"WHEAT FLOUR", 200, "KES", "Nairobi", "2024-12-01", some "2KG", some ProductType.flour⟩

/-- C7 witness: on a `2KG` flour quote both operations use the divisor 2. -/
theorem getKamisFlourPricePerKg_shares_divisor_witness :
    ∃ d : ℚ, (getKamisFlourPricePerKg flourPacketSample).pricePerKg =
        round2 (flourPacketSample.price / d) ∧
      (convertKamisPriceToUSD flourPacketSample 154 2 90).price =
        round2 ((if flourPacketSample.currency = "KES" then flourPacketSample.price / 154
          else flourPacketSample.price) / d * 1000) ∧
      (getKamisFlourPricePerKg flourPacketSample).currency = flourPacketSample.currency :=
  getKamisFlourPricePerKg_shares_divisor flourPacketSample 154 (by norm_num) (Or.inl (by decide))

/-- C1: when the Alpha Vantage adapter yields nothing (no key, or every
lookup empty), no mock flag is set, and every other adapter fetch fails or
returns an empty list, the default WHEAT+MAIZE request returns exactly the
two static fallback quotes: WHEAT at 280 and MAIZE at 220, both `USD` per
`MT` with source `Fallback`. -/
theorem fetchWheatMaizePrices_fallback_guarantee (env : Env)
    (hk : env.alphaKey = false ∨ ∀ c, env.alphaQuote c = none)
    (hmt : env.envMockTridge = false) (hmk : env.envMockKamis = false)
    (hkg : ∀ c, env.kamisGrainFetch c = Except.ok [] ∨ env.kamisGrainFetch c = Except.error ())
    (ht : ∀ c, env.tridgeFetch c = Except.ok [] ∨ env.tridgeFetch c = Except.error ())
    (hw : ∀ c, env.worldBankFetch c = Except.ok [] ∨ env.worldBankFetch c = Except.error ()) :
    fetchWheatMaizePrices ⟨none, false, false, false, false⟩ env =
      [ ⟨"WHEAT", 280, "USD", env.now, DataSource.fallback, none, some "MT", some ProductType.grain⟩,
        ⟨"MAIZE", 220, "USD", env.now, DataSource.fallback, none, some "MT", some ProductType.grain⟩ ] := by
  have hkgr : ∀ c, kamisGrainResolve env false c = Except.ok none ∨
      kamisGrainResolve env false c = Except.error () := by
    intro c
    rcases hkg c with h | h
    · left; simp [kamisGrainResolve, h, Except.map]
    · right; simp [kamisGrainResolve, h, Except.map]
  have htr : ∀ c, tridgeResolve env false c = Except.ok none ∨
      tridgeResolve env false c = Except.error () := by
    intro c
    rcases ht c with h | h
    · left; simp [tridgeResolve, h, Except.map]
    · right; simp [tridgeResolve, h, Except.map]
  have hwr : ∀ c, worldBankResolve env c = Except.ok none ∨
      worldBankResolve env c = Except.error () := by
    intro c
    rcases hw c with h | h
    · left; simp [worldBankResolve, h, Except.map]
    · right; simp [worldBankResolve, h, Except.map]
  have hempty : ∀ (f : String → Except Unit (Option PriceData)),
      (∀ c, f c = Except.ok none ∨ f c = Except.error ()) →
      ∀ cs, resolveFold f cs [] = [] := by
    intro f hf cs
    induction cs with
    | nil => rfl
    | cons c cs ih =>
      rw [resolveFold_cons]
      have hstep : resolveStep f [] c = [] := by
        unfold resolveStep
        rcases hf c with h | h <;> simp [h]
      rw [hstep, ih]
  have hlw : fallbackLookup "WHEAT" = some 280 := by decide
  have hlm : fallbackLookup "MAIZE" = some 220 := by decide
  have hsw : strIncludes "WHEAT" "FLOUR" = false := by decide
  have hsm : strIncludes "MAIZE" "FLOUR" = false := by decide
  have hfw : fallbackResolve env "WHEAT" =
      Except.ok (some ⟨"WHEAT", 280, "USD", env.now, DataSource.fallback, none, some "MT",
        some ProductType.grain⟩) := by
    simp [fallbackResolve, hlw, hsw]
  have hfm : fallbackResolve env "MAIZE" =
      Except.ok (some ⟨"MAIZE", 220, "USD", env.now, DataSource.fallback, none, some "MT",
        some ProductType.grain⟩) := by
    simp [fallbackResolve, hlm, hsm]
  have hb : (("WHEAT" : String) == "MAIZE") = false := by decide
  show resolveFold (fallbackResolve env) ["WHEAT", "MAIZE"]
      (resolveFold (worldBankResolve env) ["WHEAT", "MAIZE"]
        (resolveFold (tridgeResolve env env.envMockTridge) ["WHEAT", "MAIZE"]
          (resolveFold (kamisGrainResolve env env.envMockKamis) ["WHEAT", "MAIZE"]
            (kamisFlourStage env env.envMockKamis [] (alphaStage env ["WHEAT", "MAIZE"]))))) = _
  rw [hmt, hmk]
  have ha : alphaStage env ["WHEAT", "MAIZE"] = [] := by
    rcases hk with h | h
    · simp [alphaStage, h]
    · simp [alphaStage, fetchAlphaVantagePrices, h]
  rw [ha]
  have hkf : kamisFlourStage env false [] [] = [] := rfl
  rw [hkf]
  rw [hempty _ hkgr, hempty _ htr, hempty _ hwr]
  simp [resolveFold, resolveStep, hfw, hfm, hb]

/-- A concrete environment: no API key, no mock flags, every fetch succeeds
with an empty list. -/
def emptyEnv : Env :=
  { alphaKey := false, envMockTridge := false, envMockKamis := false,
    kesToUsdRate := 154, flourBagKg := 2, grainBagKg := 90, now := "2024-12-01",
    alphaQuote := fun _ => none,
    kamisFlourFetch := Except.ok [],
    kamisGrainFetch := fun _ => Except.ok [],
    tridgeFetch := fun _ => Except.ok [],
    worldBankFetch := fun _ => Except.ok [] }

/-- C1 witness: the fallback guarantee at a concrete all-empty environment. -/
theorem fetchWheatMaizePrices_fallback_guarantee_witness :
    fetchWheatMaizePrices ⟨none, false, false, false, false⟩ emptyEnv =
      [ ⟨"WHEAT", 280, "USD", "2024-12-01", DataSource.fallback, none, some "MT", some ProductType.grain⟩,
        ⟨"MAIZE", 220, "USD", "2024-12-01", DataSource.fallback, none, some "MT", some ProductType.grain⟩ ] :=
  fetchWheatMaizePrices_fallback_guarantee emptyEnv (Or.inl rfl) rfl rfl
    (fun _ => Or.inl rfl) (fun _ => Or.inl rfl) (fun _ => Or.inl rfl)

/-! ## Per-stage facts feeding the orchestrator invariants -/

theorem except_map_ok_inv {α β : Type} (g : α → β) (x : Except Unit α) (y : β)
    (h : Except.map g x = Except.ok y) : ∃ a, x = Except.ok a ∧ g a = y := by
  cases x with
  | error e => simp [Except.map] at h
  | ok a => refine ⟨a, rfl, ?_⟩; simpa [Except.map] using h

theorem head?_filter_mem {α : Type} (p : α → Bool) (l : List α) (a : α)
    (h : (l.filter p).head? = some a) : a ∈ l ∧ p a := by
  have hmem : a ∈ l.filter p :=
    List.mem_of_mem_head? (by rw [h]; exact Option.mem_def.mpr rfl)
  exact ⟨(List.mem_filter.mp hmem).1, (List.mem_filter.mp hmem).2⟩

theorem kamisFlourEntry_commodity (env : Env) (l : List KamisPrice) (c : String)
    (e : PriceData) (h : kamisFlourEntry env l c = some e) : e.commodity = c := by
  unfold kamisFlourEntry at h
  rcases Option.map_eq_some'.mp h with ⟨mp, hmp, he⟩
  have hc : mp.commodity = c := by simpa using (head?_filter_mem _ _ _ hmp).2
  rw [← he]
  exact hc

theorem kamisFlourEntry_source (env : Env) (l : List KamisPrice) (c : String)
    (e : PriceData) (h : kamisFlourEntry env l c = some e) : e.source = DataSource.kamis := by
  unfold kamisFlourEntry at h
  rcases Option.map_eq_some'.mp h with ⟨mp, _, he⟩
  rw [← he]
  rfl

theorem kamisGrainResolve_commodity (env : Env) (m : Bool) (c : String) (e : PriceData)
    (h : kamisGrainResolve env m c = Except.ok (some e)) : e.commodity = c := by
  unfold kamisGrainResolve at h
  rcases except_map_ok_inv _ _ _ h with ⟨kps, _, hg⟩
  rcases Option.map_eq_some'.mp hg with ⟨mp, hmp, he⟩
  have hc : mp.commodity = c := by simpa using List.find?_some hmp
  rw [← he]
  exact hc

theorem kamisGrainResolve_source (env : Env) (m : Bool) (c : String) (e : PriceData)
    (h : kamisGrainResolve env m c = Except.ok (some e)) : e.source = DataSource.kamis := by
  unfold kamisGrainResolve at h
  rcases except_map_ok_inv _ _ _ h with ⟨kps, _, hg⟩
  rcases Option.map_eq_some'.mp hg with ⟨mp, _, he⟩
  rw [← he]
  rfl

theorem tridgeResolve_commodity (env : Env) (m : Bool) (c : String) (e : PriceData)
    (h : tridgeResolve env m c = Except.ok (some e)) : e.commodity = c := by
  unfold tridgeResolve at h
  cases m with
  | true =>
    simp only [if_pos rfl] at h
    injection h with h'
    injection h' with h''
    rw [← h'']
    rfl
  | false =>
    simp only [Bool.false_eq_true, if_neg] at h
    rcases except_map_ok_inv _ _ _ h with ⟨tps, _, hg⟩
    rcases Option.map_eq_some'.mp hg with ⟨tp, htp, he⟩
    have hc : tp.commodity = c := by simpa using List.find?_some htp
    rw [← he]
    exact hc

theorem tridgeResolve_source (env : Env) (m : Bool) (c : String) (e : PriceData)
    (h : tridgeResolve env m c = Except.ok (some e)) : e.source = DataSource.tridge := by
  unfold tridgeResolve at h
  cases m with
  | true =>
    simp only [if_pos rfl] at h
    injection h with h'
    injection h' with h''
    rw [← h'']
    rfl
  | false =>
    simp only [Bool.false_eq_true, if_neg] at h
    rcases except_map_ok_inv _ _ _ h with ⟨tps, _, hg⟩
    rcases Option.map_eq_some'.mp hg with ⟨tp, _, he⟩
    rw [← he]
    rfl

theorem worldBankResolve_commodity (env : Env) (c : String) (e : PriceData)
    (h : worldBankResolve env c = Except.ok (some e)) : e.commodity = c := by
  unfold worldBankResolve at h
  rcases except_map_ok_inv _ _ _ h with ⟨wps, _, hg⟩
  rcases Option.map_eq_some'.mp hg with ⟨wb, hwb, he⟩
  have hc : wb.commodity = c := by simpa using List.find?_some hwb
  rw [← he]
  exact hc

theorem worldBankResolve_source (env : Env) (c : String) (e : PriceData)
    (h : worldBankResolve env c = Except.ok (some e)) : e.source = DataSource.worldBank := by
  unfold worldBankResolve at h
  rcases except_map_ok_inv _ _ _ h with ⟨wps, _, hg⟩
  rcases Option.map_eq_some'.mp hg with ⟨wb, _, he⟩
  rw [← he]
  rfl

theorem fallbackResolve_commodity (env : Env) (c : String) (e : PriceData)
    (h : fallbackResolve env c = Except.ok (some e)) : e.commodity = c := by
  unfold fallbackResolve at h
  injection h with h'
  rcases Option.map_eq_some'.mp h' with ⟨v, _, he⟩
  rw [← he]

theorem fallbackResolve_source (env : Env) (c : String) (e : PriceData)
    (h : fallbackResolve env c = Except.ok (some e)) : e.source = DataSource.fallback := by
  unfold fallbackResolve at h
  injection h with h'
  rcases Option.map_eq_some'.mp h' with ⟨v, _, he⟩
  rw [← he]

theorem fetchAlphaVantagePrices_commodities (cs : List String) (quote : String → Option ℚ)
    (now : String) :
    ((fetchAlphaVantagePrices cs quote now).map (fun a => a.commodity)).Sublist cs := by
  induction cs with
  | nil => simp [fetchAlphaVantagePrices]
  | cons c cs ih =>
    rcases hq : quote c with _ | p
    · simpa [fetchAlphaVantagePrices, List.filterMap_cons, hq] using ih.cons c
    · simpa [fetchAlphaVantagePrices, List.filterMap_cons, hq] using ih.cons₂ c

theorem alphaStage_commodities (env : Env) (gcs : List String) :
    ((alphaStage env gcs).map (fun q => q.commodity)).Sublist gcs := by
  unfold alphaStage
  split
  · rw [List.map_map]
    exact fetchAlphaVantagePrices_commodities gcs env.alphaQuote env.now
  · simp

theorem alphaStage_source (env : Env) (gcs : List String) :
    ∀ q ∈ alphaStage env gcs, q.source = DataSource.alphaVantage := by
  intro q hq
  unfold alphaStage at hq
  split at hq
  · rcases List.mem_map.mp hq with ⟨a, _, ha⟩
    rw [← ha]
    rfl
  · cases hq

theorem kamisFlourStage_eq (env : Env) (m : Bool) (fcs : List String)
    (res : List PriceData) :
    kamisFlourStage env m fcs res = res ∨
    ∃ lst, (lst = getMockKamisFlourPrices env.now ∨ env.kamisFlourFetch = Except.ok lst) ∧
      kamisFlourStage env m fcs res =
        resolveFold (fun c => Except.ok (kamisFlourEntry env lst c)) fcs res := by
  unfold kamisFlourStage
  by_cases he : fcs.isEmpty
  · left; simp [he]
  · rw [if_neg he]
    cases m with
    | true => exact Or.inr ⟨getMockKamisFlourPrices env.now, Or.inl rfl, rfl⟩
    | false =>
      rcases hfetch : env.kamisFlourFetch with u | lst
      · left; rfl
      · exact Or.inr ⟨lst, Or.inr rfl, rfl⟩

/-- C2: for every request and every combination of adapter outcomes, the
result list of `fetchWheatMaizePrices` holds at most one quote per commodity:
its commodity column has no duplicates. -/
theorem fetchWheatMaizePrices_commodity_nodup (options : FetchOptions) (env : Env) :
    ((fetchWheatMaizePrices options env).map (fun q => q.commodity)).Nodup := by
  have hcs : (requestedCommodities options).Nodup := by
    unfold requestedCommodities
    rcases hoc : options.commodity with _ | c
    · dsimp only
      split <;> decide
    · simp
  have hgn : ((requestedCommodities options).filter (fun c => !strIncludes c "FLOUR")).Nodup :=
    hcs.filter _
  have h0 : ((alphaStage env ((requestedCommodities options).filter (fun c => !strIncludes c "FLOUR"))).map
      (fun q => q.commodity)).Nodup :=
    (alphaStage_commodities env _).nodup hgn
  have h1 : ((kamisFlourStage env (options.useMockKamis || env.envMockKamis)
      ((requestedCommodities options).filter (fun c => strIncludes c "FLOUR"))
      (alphaStage env ((requestedCommodities options).filter (fun c => !strIncludes c "FLOUR")))).map
      (fun q => q.commodity)).Nodup := by
    rcases kamisFlourStage_eq env (options.useMockKamis || env.envMockKamis)
        ((requestedCommodities options).filter (fun c => strIncludes c "FLOUR"))
        (alphaStage env ((requestedCommodities options).filter (fun c => !strIncludes c "FLOUR"))) with
      he | ⟨lst, _, he⟩
    · rw [he]; exact h0
    · rw [he]
      refine resolveFold_nodup _ _ _ ?_ h0
      intro c _ e hh
      injection hh with hh'
      exact kamisFlourEntry_commodity env lst c e hh'
  have h2 := resolveFold_nodup (kamisGrainResolve env (options.useMockKamis || env.envMockKamis))
    ((requestedCommodities options).filter (fun c => !strIncludes c "FLOUR")) _
    (fun c _ e hh => kamisGrainResolve_commodity env _ c e hh) h1
  have h3 := resolveFold_nodup (tridgeResolve env (options.useMockTridge || env.envMockTridge))
    ((requestedCommodities options).filter (fun c => !strIncludes c "FLOUR")) _
    (fun c _ e hh => tridgeResolve_commodity env _ c e hh) h2
  have h4 := resolveFold_nodup (worldBankResolve env)
    ((requestedCommodities options).filter (fun c => !strIncludes c "FLOUR")) _
    (fun c _ e hh => worldBankResolve_commodity env c e hh) h3
  exact resolveFold_nodup (fallbackResolve env) (requestedCommodities options) _
    (fun c _ e hh => fallbackResolve_commodity env c e hh) h4

/-- C3 witness environment: the Kamis grain scrape returns a WHEAT quote and
every other adapter returns nothing. -/
def kamisWheatEnv : Env :=
  { emptyEnv with
    kamisGrainFetch := fun c => if c = "WHEAT" then Except.ok [kgKesSample] else Except.ok [] }

/-- Kamis slice of the priority ordering: for any requested grain commodity,
whenever the effective Kamis grain source (mock or scrape) yields a quote for
it, the quote `fetchWheatMaizePrices` returns for that commodity comes from a
source no later than Kamis in the chain — Alpha Vantage or Kamis. -/
theorem fetchWheatMaizePrices_kamis_priority (options : FetchOptions) (env : Env)
    (c : String) (l : List KamisPrice)
    (hfl : strIncludes c "FLOUR" = false)
    (hfetch : (if options.useMockKamis || env.envMockKamis then Except.ok (getMockKamisPrices env.now)
      else env.kamisGrainFetch c) = Except.ok l)
    (hl : (l.find? (fun p => p.commodity == c)).isSome)
    (q : PriceData) (hq : q ∈ fetchWheatMaizePrices options env)
    (hc : q.commodity = c) :
    q.source = DataSource.alphaVantage ∨ q.source = DataSource.kamis := by
  -- stage abbreviations
  have hq4 : q ∈ resolveFold (fallbackResolve env)
      (requestedCommodities options)
      (resolveFold (worldBankResolve env)
        ((requestedCommodities options).filter (fun c => !strIncludes c "FLOUR"))
        (resolveFold (tridgeResolve env (options.useMockTridge || env.envMockTridge))
          ((requestedCommodities options).filter (fun c => !strIncludes c "FLOUR"))
          (resolveFold (kamisGrainResolve env (options.useMockKamis || env.envMockKamis))
            ((requestedCommodities options).filter (fun c => !strIncludes c "FLOUR"))
            (kamisFlourStage env (options.useMockKamis || env.envMockKamis)
              ((requestedCommodities options).filter (fun c => strIncludes c "FLOUR"))
              (alphaStage env ((requestedCommodities options).filter (fun c => !strIncludes c "FLOUR"))))))) := hq
  -- the invariant after the Kamis grain stage
  have hP2 : ∀ q' ∈ resolveFold (kamisGrainResolve env (options.useMockKamis || env.envMockKamis))
      ((requestedCommodities options).filter (fun c => !strIncludes c "FLOUR"))
      (kamisFlourStage env (options.useMockKamis || env.envMockKamis)
        ((requestedCommodities options).filter (fun c => strIncludes c "FLOUR"))
        (alphaStage env ((requestedCommodities options).filter (fun c => !strIncludes c "FLOUR")))),
      q'.source = DataSource.alphaVantage ∨ q'.source = DataSource.kamis := by
    refine resolveFold_preserve _ _ _ _ ?_ ?_
    · -- after the flour stage
      rcases kamisFlourStage_eq env (options.useMockKamis || env.envMockKamis)
          ((requestedCommodities options).filter (fun c => strIncludes c "FLOUR"))
          (alphaStage env ((requestedCommodities options).filter (fun c => !strIncludes c "FLOUR"))) with
        he | ⟨lst, _, he⟩
      · rw [he]
        intro q' hq'
        exact Or.inl (alphaStage_source env _ q' hq')
      · rw [he]
        refine resolveFold_preserve _ _ _ _ ?_ ?_
        · intro q' hq'
          exact Or.inl (alphaStage_source env _ q' hq')
        · intro c _ e hh
          injection hh with hh'
          exact Or.inr (kamisFlourEntry_source env lst c e hh')
    · intro c _ e hh
      exact Or.inr (kamisGrainResolve_source env _ c e hh)
  by_cases hwg : c ∈ (requestedCommodities options).filter (fun c => !strIncludes c "FLOUR")
  · -- WHEAT requested: the Kamis stage resolves it, later stages cannot touch it
    have hres : ∃ e, kamisGrainResolve env (options.useMockKamis || env.envMockKamis) c =
        Except.ok (some e) := by
      unfold kamisGrainResolve
      rw [hfetch]
      rcases Option.isSome_iff_exists.mp hl with ⟨mp, hmp⟩
      exact ⟨kamisToPriceData
          (convertKamisPriceToUSD mp env.kesToUsdRate env.flourBagKg env.grainBagKg) ProductType.grain,
        by simp [Except.map, hmp]⟩
    have hx2 := resolveFold_resolves (kamisGrainResolve env (options.useMockKamis || env.envMockKamis))
      ((requestedCommodities options).filter (fun c => !strIncludes c "FLOUR"))
      (kamisFlourStage env (options.useMockKamis || env.envMockKamis)
        ((requestedCommodities options).filter (fun c => strIncludes c "FLOUR"))
        (alphaStage env ((requestedCommodities options).filter (fun c => !strIncludes c "FLOUR"))))
      c (fun c _ e hh => kamisGrainResolve_commodity env _ c e hh) hwg hres
    have hx3 := resolveFold_isSome_mono (tridgeResolve env (options.useMockTridge || env.envMockTridge))
      ((requestedCommodities options).filter (fun c => !strIncludes c "FLOUR")) _ c hx2
    have hx4 := resolveFold_isSome_mono (worldBankResolve env)
      ((requestedCommodities options).filter (fun c => !strIncludes c "FLOUR")) _ c hx3
    have hm4 := resolveFold_resolved_stable (fallbackResolve env) (requestedCommodities options) _ c
      (fun c _ e hh => fallbackResolve_commodity env c e hh) hx4 q hq4 hc
    have hm3 := resolveFold_resolved_stable (worldBankResolve env)
      ((requestedCommodities options).filter (fun c => !strIncludes c "FLOUR")) _ c
      (fun c _ e hh => worldBankResolve_commodity env c e hh) hx3 q hm4 hc
    have hm2 := resolveFold_resolved_stable (tridgeResolve env (options.useMockTridge || env.envMockTridge))
      ((requestedCommodities options).filter (fun c => !strIncludes c "FLOUR")) _ c
      (fun c _ e hh => tridgeResolve_commodity env _ c e hh) hx2 q hm3 hc
    exact hP2 q hm2
  · -- WHEAT not requested as a grain: no quote for it can exist at all
    exfalso
    have hnc : c ∉ requestedCommodities options := by
      intro hmem
      exact hwg (List.mem_filter.mpr ⟨hmem, by simp [hfl]⟩)
    rcases resolveFold_mem (fallbackResolve env) (requestedCommodities options) _ q
        (fun c _ e hh => fallbackResolve_commodity env c e hh) hq4 with hq3 | hmem
    · rcases resolveFold_mem (worldBankResolve env) _ _ q
          (fun c _ e hh => worldBankResolve_commodity env c e hh) hq3 with hq2 | hmem
      · rcases resolveFold_mem (tridgeResolve env (options.useMockTridge || env.envMockTridge)) _ _ q
            (fun c _ e hh => tridgeResolve_commodity env _ c e hh) hq2 with hq1 | hmem
        · rcases resolveFold_mem (kamisGrainResolve env (options.useMockKamis || env.envMockKamis)) _ _ q
              (fun c _ e hh => kamisGrainResolve_commodity env _ c e hh) hq1 with hq0 | hmem
          · -- inside the flour stage output
            rcases kamisFlourStage_eq env (options.useMockKamis || env.envMockKamis)
                ((requestedCommodities options).filter (fun c => strIncludes c "FLOUR"))
                (alphaStage env ((requestedCommodities options).filter (fun c => !strIncludes c "FLOUR"))) with
              he | ⟨lst, _, he⟩
            · rw [he] at hq0
              have := List.Sublist.subset (alphaStage_commodities env _)
                (List.mem_map_of_mem (fun q => q.commodity) hq0)
              rw [hc] at this
              exact hwg this
            · rw [he] at hq0
              rcases resolveFold_mem _ _ _ q
                  (fun c _ e hh => by
                    injection hh with hh'
                    exact kamisFlourEntry_commodity env lst c e hh') hq0 with hq00 | hmem
              · have := List.Sublist.subset (alphaStage_commodities env _)
                  (List.mem_map_of_mem (fun q => q.commodity) hq00)
                rw [hc] at this
                exact hwg this
              · rw [hc] at hmem
                have := (List.mem_filter.mp hmem).2
                rw [hfl] at this
                cases this
          · rw [hc] at hmem; exact hwg hmem
        · rw [hc] at hmem; exact hwg hmem
      · rw [hc] at hmem; exact hwg hmem
    · rw [hc] at hmem; exact hnc hmem

/-- The Kamis slice at a concrete environment: with a live Kamis WHEAT quote,
the returned WHEAT quote's source is Kamis (hence not Fallback). -/
theorem fetchWheatMaizePrices_kamis_priority_witness :
    (kamisToPriceData (convertKamisPriceToUSD kgKesSample 154 2 90) ProductType.grain).source =
      DataSource.alphaVantage ∨
    (kamisToPriceData (convertKamisPriceToUSD kgKesSample 154 2 90) ProductType.grain).source =
      DataSource.kamis :=
  fetchWheatMaizePrices_kamis_priority ⟨none, false, false, false, false⟩ kamisWheatEnv
    "WHEAT" [kgKesSample] (by decide) rfl rfl
    (kamisToPriceData (convertKamisPriceToUSD kgKesSample 154 2 90) ProductType.grain)
    (List.mem_cons_self _ _) rfl

/-- Rounding to two decimals preserves nonnegativity. -/
theorem round2_nonneg (q : ℚ) (h : 0 ≤ q) : 0 ≤ round2 q := by
  unfold round2
  have h1 : (0:ℤ) ≤ round (q * 100) := by
    rw [round_eq]
    refine Int.le_floor.mpr ?_
    push_cast
    linarith
  have h2 : ((0:ℤ):ℚ) ≤ ((round (q * 100) : ℤ) : ℚ) := by exact_mod_cast h1
  have := div_nonneg (by exact_mod_cast h1 : (0:ℚ) ≤ ((round (q * 100) : ℤ) : ℚ)) (by norm_num : (0:ℚ) ≤ 100)
  exact this

/-- A positive raw price converts to a nonnegative USD/MT price whenever the
exchange rate and bag sizes are positive (rounding can reach 0 but never a
negative value). -/
theorem convertKamisPriceToUSD_price_nonneg (k : KamisPrice) (r fb gb : ℚ)
    (hp : 0 < k.price) (hr : 0 < r) (hfb : 0 < fb) (hgb : 0 < gb) :
    0 ≤ (convertKamisPriceToUSD k r fb gb).price := by
  unfold convertKamisPriceToUSD
  dsimp only
  apply round2_nonneg
  split_ifs <;> positivity

/-- Every value in the static fallback table is positive. -/
theorem fallbackLookup_pos (c : String) (v : ℚ) (h : fallbackLookup c = some v) : 0 < v := by
  unfold fallbackLookup at h
  rcases Option.map_eq_some'.mp h with ⟨pr, hpr, hv⟩
  have hmem := List.mem_of_find?_eq_some hpr
  simp only [FALLBACK_PRICES, List.mem_cons, List.not_mem_nil, or_false] at hmem
  rcases hmem with rfl | rfl | rfl | rfl <;> (rw [← hv]; norm_num)

/-- The grain mock dataset only holds positive prices. -/
theorem getMockKamisPrices_price_pos (now : String) (p : KamisPrice)
    (hp : p ∈ getMockKamisPrices now) : 0 < p.price := by
  simp only [getMockKamisPrices, List.mem_cons, List.not_mem_nil, or_false] at hp
  rcases hp with rfl | rfl | rfl | rfl <;> norm_num

/-- The flour mock dataset only holds positive prices. -/
theorem getMockKamisFlourPrices_price_pos (now : String) (p : KamisPrice)
    (hp : p ∈ getMockKamisFlourPrices now) : 0 < p.price := by
  simp only [getMockKamisFlourPrices, List.mem_cons, List.not_mem_nil, or_false] at hp
  rcases hp with rfl | rfl | rfl | rfl | rfl | rfl | rfl | rfl <;> norm_num

/-- The Tridge mock price is positive for the commodities the fetcher can
request. -/
theorem getMockTridgePrice_price_pos (c : String) (now : String)
    (hc : c = "WHEAT" ∨ c = "MAIZE") : 0 < (getMockTridgePrice c now).price := by
  rcases hc with rfl | rfl
  · norm_num [getMockTridgePrice]
  · unfold getMockTridgePrice
    rw [if_neg (by decide : ¬("MAIZE":String) = "WHEAT"), if_pos rfl]
    norm_num

/-- The price pushed by the Kamis flour pass is a converted scraped price. -/
theorem kamisFlourEntry_price (env : Env) (lst : List KamisPrice) (c : String) (e : PriceData)
    (h : kamisFlourEntry env lst c = some e) :
    ∃ mp, mp ∈ lst ∧
      e.price = (convertKamisPriceToUSD mp env.kesToUsdRate env.flourBagKg env.grainBagKg).price := by
  unfold kamisFlourEntry at h
  rcases Option.map_eq_some'.mp h with ⟨mp, hmp, he⟩
  exact ⟨mp, (head?_filter_mem _ _ _ hmp).1, by rw [← he]; rfl⟩

/-- The price pushed by the Kamis grain pass is a converted mock or scraped
price. -/
theorem kamisGrainResolve_price (env : Env) (m : Bool) (c : String) (e : PriceData)
    (h : kamisGrainResolve env m c = Except.ok (some e)) :
    ∃ mp, (mp ∈ getMockKamisPrices env.now ∨
        ∃ lst, env.kamisGrainFetch c = Except.ok lst ∧ mp ∈ lst) ∧
      e.price = (convertKamisPriceToUSD mp env.kesToUsdRate env.flourBagKg env.grainBagKg).price := by
  unfold kamisGrainResolve at h
  cases m with
  | true =>
    rw [if_pos rfl] at h
    rcases except_map_ok_inv _ _ _ h with ⟨kps, hk, hg⟩
    injection hk with hk'
    rcases Option.map_eq_some'.mp hg with ⟨mp, hmp, he⟩
    refine ⟨mp, Or.inl ?_, by rw [← he]; rfl⟩
    rw [hk']
    exact List.mem_of_find?_eq_some hmp
  | false =>
    rw [if_neg (by decide : ¬(false = true))] at h
    rcases except_map_ok_inv _ _ _ h with ⟨kps, hk, hg⟩
    rcases Option.map_eq_some'.mp hg with ⟨mp, hmp, he⟩
    exact ⟨mp, Or.inr ⟨kps, hk, List.mem_of_find?_eq_some hmp⟩, by rw [← he]; rfl⟩

/-- The price pushed by the Tridge stage is the mock price or a scraped one. -/
theorem tridgeResolve_price (env : Env) (m : Bool) (c : String) (e : PriceData)
    (h : tridgeResolve env m c = Except.ok (some e)) :
    e.price = (getMockTridgePrice c env.now).price ∨
    ∃ tps tp, env.tridgeFetch c = Except.ok tps ∧ tp ∈ tps ∧ e.price = tp.price := by
  unfold tridgeResolve at h
  cases m with
  | true =>
    rw [if_pos rfl] at h
    injection h with h'
    injection h' with h''
    left
    rw [← h'']
    rfl
  | false =>
    rw [if_neg (by decide : ¬(false = true))] at h
    rcases except_map_ok_inv _ _ _ h with ⟨tps, htp, hg⟩
    rcases Option.map_eq_some'.mp hg with ⟨tp, htp2, he⟩
    exact Or.inr ⟨tps, tp, htp, List.mem_of_find?_eq_some htp2, by rw [← he]; rfl⟩

/-- The price pushed by the fallback stage comes from the static table. -/
theorem fallbackResolve_price (env : Env) (c : String) (e : PriceData)
    (h : fallbackResolve env c = Except.ok (some e)) :
    ∃ v, fallbackLookup c = some v ∧ e.price = v := by
  unfold fallbackResolve at h
  injection h with h'
  rcases Option.map_eq_some'.mp h' with ⟨v, hv, he⟩
  exact ⟨v, hv, by rw [← he]⟩


/-- C4 (amended): quotes that do not come from Alpha Vantage or the World Bank
have nonnegative prices — and strictly positive ones when sourced from the
fallback table or Tridge — provided the conversion constants are positive and
the Kamis/Tridge fetches only deliver positive raw prices (which the scrapers
enforce).  Alpha Vantage and World Bank values are excluded because the code
propagates their parsed prices without any positivity check. -/
theorem fetchWheatMaizePrices_price_sign (options : FetchOptions) (env : Env)
    (hopt : options.commodity = none ∨ options.commodity = some "WHEAT" ∨
      options.commodity = some "MAIZE" ∨ options.commodity = some "WHEAT FLOUR" ∨
      options.commodity = some "MAIZE FLOUR")
    (hr : 0 < env.kesToUsdRate) (hfb : 0 < env.flourBagKg) (hgb : 0 < env.grainBagKg)
    (hkf : ∀ lst, env.kamisFlourFetch = Except.ok lst → ∀ p ∈ lst, 0 < p.price)
    (hkg : ∀ c lst, env.kamisGrainFetch c = Except.ok lst → ∀ p ∈ lst, 0 < p.price)
    (ht : ∀ c lst, env.tridgeFetch c = Except.ok lst → ∀ p ∈ lst, 0 < p.price)
    (q : PriceData) (hq : q ∈ fetchWheatMaizePrices options env)
    (hs1 : q.source ≠ DataSource.alphaVantage) (hs2 : q.source ≠ DataSource.worldBank) :
    0 ≤ q.price ∧ ((q.source = DataSource.fallback ∨ q.source = DataSource.tridge) → 0 < q.price) := by
  have hgsub : ∀ c ∈ (requestedCommodities options).filter (fun c => !strIncludes c "FLOUR"),
      c = "WHEAT" ∨ c = "MAIZE" := by
    unfold requestedCommodities
    rcases hopt with h | h | h | h | h <;> rw [h] <;> dsimp only <;>
      first
        | decide
        | (split <;> decide)
  -- the quote-level invariant
  have hP : ∀ q' ∈ fetchWheatMaizePrices options env,
      q'.source ≠ DataSource.alphaVantage → q'.source ≠ DataSource.worldBank →
      0 ≤ q'.price ∧ ((q'.source = DataSource.fallback ∨ q'.source = DataSource.tridge) → 0 < q'.price) := by
    have hconv : ∀ (mp : KamisPrice), 0 < mp.price →
        0 ≤ (convertKamisPriceToUSD mp env.kesToUsdRate env.flourBagKg env.grainBagKg).price :=
      fun mp hmp => convertKamisPriceToUSD_price_nonneg mp _ _ _ hmp hr hfb hgb
    -- base: alpha stage
    have hbase : ∀ q' ∈ alphaStage env
        ((requestedCommodities options).filter (fun c => !strIncludes c "FLOUR")),
        q'.source ≠ DataSource.alphaVantage → q'.source ≠ DataSource.worldBank →
        0 ≤ q'.price ∧ ((q'.source = DataSource.fallback ∨ q'.source = DataSource.tridge) → 0 < q'.price) := by
      intro q' hq' h1 _
      exact absurd (alphaStage_source env _ q' hq') h1
    -- flour stage
    have hflour : ∀ q' ∈ kamisFlourStage env (options.useMockKamis || env.envMockKamis)
        ((requestedCommodities options).filter (fun c => strIncludes c "FLOUR"))
        (alphaStage env ((requestedCommodities options).filter (fun c => !strIncludes c "FLOUR"))),
        q'.source ≠ DataSource.alphaVantage → q'.source ≠ DataSource.worldBank →
        0 ≤ q'.price ∧ ((q'.source = DataSource.fallback ∨ q'.source = DataSource.tridge) → 0 < q'.price) := by
      rcases kamisFlourStage_eq env (options.useMockKamis || env.envMockKamis)
          ((requestedCommodities options).filter (fun c => strIncludes c "FLOUR"))
          (alphaStage env ((requestedCommodities options).filter (fun c => !strIncludes c "FLOUR"))) with
        he | ⟨lst, hsrc, he⟩
      · rw [he]; exact hbase
      · rw [he]
        refine resolveFold_preserve _ _ _ _ hbase ?_
        intro c _ e hh _ _
        injection hh with hh'
        rcases kamisFlourEntry_price env lst c e hh' with ⟨mp, hmp, hep⟩
        have hmppos : 0 < mp.price := by
          rcases hsrc with rfl | hfetch
          · exact getMockKamisFlourPrices_price_pos env.now mp hmp
          · exact hkf lst hfetch mp hmp
        constructor
        · rw [hep]; exact hconv mp hmppos
        · intro hsf
          have := kamisFlourEntry_source env lst c e hh'
          rcases hsf with hsf | hsf <;> (rw [hsf] at this; cases this)
    -- kamis grain stage
    have hgrain : ∀ q' ∈ resolveFold (kamisGrainResolve env (options.useMockKamis || env.envMockKamis))
        ((requestedCommodities options).filter (fun c => !strIncludes c "FLOUR"))
        (kamisFlourStage env (options.useMockKamis || env.envMockKamis)
          ((requestedCommodities options).filter (fun c => strIncludes c "FLOUR"))
          (alphaStage env ((requestedCommodities options).filter (fun c => !strIncludes c "FLOUR")))),
        q'.source ≠ DataSource.alphaVantage → q'.source ≠ DataSource.worldBank →
        0 ≤ q'.price ∧ ((q'.source = DataSource.fallback ∨ q'.source = DataSource.tridge) → 0 < q'.price) := by
      refine resolveFold_preserve _ _ _ _ hflour ?_
      intro c _ e hh _ _
      rcases kamisGrainResolve_price env _ c e hh with ⟨mp, hmp, hep⟩
      have hmppos : 0 < mp.price := by
        rcases hmp with hmock | ⟨lst, hfetch, hmem⟩
        · exact getMockKamisPrices_price_pos env.now mp hmock
        · exact hkg c lst hfetch mp hmem
      constructor
      · rw [hep]; exact hconv mp hmppos
      · intro hsf
        have := kamisGrainResolve_source env _ c e hh
        rcases hsf with hsf | hsf <;> (rw [hsf] at this; cases this)
    -- tridge stage
    have htridge : ∀ q' ∈ resolveFold (tridgeResolve env (options.useMockTridge || env.envMockTridge))
        ((requestedCommodities options).filter (fun c => !strIncludes c "FLOUR"))
        (resolveFold (kamisGrainResolve env (options.useMockKamis || env.envMockKamis))
          ((requestedCommodities options).filter (fun c => !strIncludes c "FLOUR"))
          (kamisFlourStage env (options.useMockKamis || env.envMockKamis)
            ((requestedCommodities options).filter (fun c => strIncludes c "FLOUR"))
            (alphaStage env ((requestedCommodities options).filter (fun c => !strIncludes c "FLOUR"))))),
        q'.source ≠ DataSource.alphaVantage → q'.source ≠ DataSource.worldBank →
        0 ≤ q'.price ∧ ((q'.source = DataSource.fallback ∨ q'.source = DataSource.tridge) → 0 < q'.price) := by
      refine resolveFold_preserve _ _ _ _ hgrain ?_
      intro c hcmem e hh _ _
      have hpos : 0 < e.price := by
        rcases tridgeResolve_price env _ c e hh with hmock | ⟨tps, tp, hfetch, hmem, hep⟩
        · rw [hmock]
          exact getMockTridgePrice_price_pos c env.now (hgsub c hcmem)
        · rw [hep]
          exact ht c tps hfetch tp hmem
      exact ⟨le_of_lt hpos, fun _ => hpos⟩
    -- world bank stage
    have hwb : ∀ q' ∈ resolveFold (worldBankResolve env)
        ((requestedCommodities options).filter (fun c => !strIncludes c "FLOUR"))
        (resolveFold (tridgeResolve env (options.useMockTridge || env.envMockTridge))
          ((requestedCommodities options).filter (fun c => !strIncludes c "FLOUR"))
          (resolveFold (kamisGrainResolve env (options.useMockKamis || env.envMockKamis))
            ((requestedCommodities options).filter (fun c => !strIncludes c "FLOUR"))
            (kamisFlourStage env (options.useMockKamis || env.envMockKamis)
              ((requestedCommodities options).filter (fun c => strIncludes c "FLOUR"))
              (alphaStage env ((requestedCommodities options).filter (fun c => !strIncludes c "FLOUR")))))),
        q'.source ≠ DataSource.alphaVantage → q'.source ≠ DataSource.worldBank →
        0 ≤ q'.price ∧ ((q'.source = DataSource.fallback ∨ q'.source = DataSource.tridge) → 0 < q'.price) := by
      refine resolveFold_preserve _ _ _ _ htridge ?_
      intro c _ e hh _ h2
      exact absurd (worldBankResolve_source env c e hh) h2
    refine resolveFold_preserve _ _ _ _ hwb ?_
    intro c _ e hh _ _
    rcases fallbackResolve_price env c e hh with ⟨v, hv, hep⟩
    have hpos : 0 < e.price := by rw [hep]; exact fallbackLookup_pos c v hv
    exact ⟨le_of_lt hpos, fun _ => hpos⟩
  exact hP q hq hs1 hs2

/-- C4 counterexample environment: the World Bank response for WHEAT parses to
the value -5, which `fetchWorldBankPrice` turns into a quote with no
positivity check. -/
def negQuoteEnv : Env :=
  { emptyEnv with
    worldBankFetch := fun c =>
      if c = "WHEAT" then
        Except.ok (fetchWorldBankPrice "WHEAT" (Except.ok (some ("-5", "2024-01")))).toList
      else Except.ok [] }

/-- C4 counterexample: with a negative World Bank value upstream, the output
of `fetchWheatMaizePrices` contains a quote whose price is not positive, so
the claimed `price > 0` invariant fails. -/
theorem fetchWheatMaizePrices_positive_price_cex :
    ¬ ∀ q ∈ fetchWheatMaizePrices ⟨none, false, false, false, false⟩ negQuoteEnv, 0 < q.price := by
  intro hall
  have heval : fetchWheatMaizePrices ⟨none, false, false, false, false⟩ negQuoteEnv =
      [ ⟨"WHEAT", -5, "USD", "2024-12-01", DataSource.worldBank, none, some "MT", some ProductType.grain⟩,
        ⟨"MAIZE", 220, "USD", "2024-12-01", DataSource.fallback, none, some "MT", some ProductType.grain⟩ ] := rfl
  have h := hall
    ⟨"WHEAT", -5, "USD", "2024-12-01", DataSource.worldBank, none, some "MT", some ProductType.grain⟩
    (by rw [heval]; exact List.mem_cons_self _ _)
  norm_num at h

/-- The WHEAT quote the fallback stage emits in the all-empty environment. -/
def wheatFallbackQuote : PriceData :=
  ⟨"WHEAT", 280, "USD", "2024-12-01", DataSource.fallback, none, some "MT", some ProductType.grain⟩

/-- C4 witness: the amended sign property applied to the fallback WHEAT quote
of the all-empty environment. -/
theorem fetchWheatMaizePrices_price_sign_witness :
    0 ≤ wheatFallbackQuote.price ∧
    ((wheatFallbackQuote.source = DataSource.fallback ∨
      wheatFallbackQuote.source = DataSource.tridge) → 0 < wheatFallbackQuote.price) := by
  refine fetchWheatMaizePrices_price_sign ⟨none, false, false, false, false⟩ emptyEnv
    (Or.inl rfl) (by norm_num [emptyEnv]) (by norm_num [emptyEnv]) (by norm_num [emptyEnv])
    ?_ ?_ ?_ wheatFallbackQuote ?_ (by decide) (by decide)
  · intro lst h p hp
    injection h with h'
    subst h'
    simp at hp
  · intro c lst h p hp
    injection h with h'
    subst h'
    simp at hp
  · intro c lst h p hp
    injection h with h'
    subst h'
    simp at hp
  · show wheatFallbackQuote ∈ fetchWheatMaizePrices ⟨none, false, false, false, false⟩ emptyEnv
    have heval : fetchWheatMaizePrices ⟨none, false, false, false, false⟩ emptyEnv =
        [ wheatFallbackQuote,
          ⟨"MAIZE", 220, "USD", "2024-12-01", DataSource.fallback, none, some "MT", some ProductType.grain⟩ ] := rfl
    rw [heval]
    exact List.mem_cons_self _ _

/-- C9 (amended): the wheat-maize oracle route rejects any commodity other
than WHEAT or MAIZE (after uppercasing) with a 400 validation error — in
particular every invalid commodity — while the live-prices path performs no
rejection at all: a request whose only symbol is unrecognized yields an empty
success result, the same shape as a no-data outcome. -/
theorem routeGET_invalid_rejected (s : String) (env : Env)
    (h1 : jsToUpper s ≠ "WHEAT") (h2 : jsToUpper s ≠ "MAIZE") :
    routeGET (some s) env =
      RouteResponse.badRequest "Invalid commodity. Must be WHEAT or MAIZE" ∧
    ∀ sym : String, normalizeSymbol sym ∉ allValidCommodities →
      ∀ (region : Option Region) (includeFlour : Bool),
        fetchLivePrices (some [sym]) region includeFlour env = [] := by
  constructor
  · unfold routeGET
    dsimp only [Option.map]
    rw [if_pos ⟨h1, h2⟩]
  · intro sym hsym region includeFlour
    rcases region with _ | r <;> simp [fetchLivePrices, hsym]

/-- C9 counterexample: a live-prices request naming only the invalid commodity
BARLEY is answered with a success payload (the symbol silently dropped), not
with a rejection. -/
theorem liveRouteGET_invalid_not_rejected_cex :
    liveRouteGET (some "BARLEY") none emptyEnv = RouteResponse.ok [] ∧
    liveRouteGET (some "BARLEY") none emptyEnv ≠
      RouteResponse.badRequest "Invalid commodity. Must be WHEAT or MAIZE" := by
  constructor
  · rfl
  · intro h
    cases h

/-- C9 witness: the oracle route rejects BARLEY with a 400 while the
live-prices fetch silently returns nothing for it. -/
theorem routeGET_invalid_rejected_witness :
    routeGET (some "BARLEY") emptyEnv =
      RouteResponse.badRequest "Invalid commodity. Must be WHEAT or MAIZE" ∧
    fetchLivePrices (some ["BARLEY"]) none false emptyEnv = [] := by
  have h := routeGET_invalid_rejected "BARLEY" emptyEnv (by decide) (by decide)
  exact ⟨h.1, h.2 "BARLEY" (by decide) none false⟩

/-- The quote a per-commodity resolution source contributes: a thrown fetch or
a missing quote contributes nothing. -/
def exceptContribution : Except Unit (Option PriceData) → Option PriceData
  | .error _ => none
  | .ok o => o

/-- First quote in an ordered list of optional contributions. -/
def firstSome : List (Option PriceData) → Option PriceData
  | [] => none
  | o :: rest => o.or (firstSome rest)

/-- The quote a resolution loop leaves for a commodity: whatever the
accumulator already held, or else the loop source's own contribution when the
commodity is in the loop's list. -/
theorem resolveFold_find? (f : String → Except Unit (Option PriceData)) :
    ∀ (cs : List String) (res : List PriceData) (c : String),
      (∀ c' ∈ cs, ∀ e, f c' = Except.ok (some e) → e.commodity = c') →
      (resolveFold f cs res).find? (fun r => r.commodity == c) =
        ((res.find? (fun r => r.commodity == c)).or
          (if c ∈ cs then exceptContribution (f c) else none)) := by
  intro cs
  induction cs with
  | nil =>
    intro res c _
    simp [resolveFold, Option.or_none]
  | cons c' cs ih =>
    intro res c hf
    rw [resolveFold_cons]
    rw [ih (resolveStep f res c') c (fun c'' hc'' e he => hf c'' (List.mem_cons_of_mem _ hc'') e he)]
    by_cases hcc : c' = c
    · subst hcc
      rcases hres : res.find? (fun r => r.commodity == c') with _ | r
      · rcases hfc : f c' with u | o
        · have hstep : resolveStep f res c' = res := by
            unfold resolveStep
            rw [hres, hfc]
            simp
          rw [hstep, hres]
          simp only [Option.none_or]
          rw [if_pos (List.mem_cons_self _ _)]
          simp [exceptContribution]
        · rcases o with _ | e
          · have hstep : resolveStep f res c' = res := by
              unfold resolveStep
              rw [hres, hfc]
              simp
            rw [hstep, hres]
            simp only [Option.none_or]
            rw [if_pos (List.mem_cons_self _ _)]
            simp [exceptContribution]
          · have hstep : resolveStep f res c' = res ++ [e] := by
              unfold resolveStep
              rw [hres, hfc]
              simp
            have hec : e.commodity = c' := hf c' (List.mem_cons_self _ _) e hfc
            have hfind : (res ++ [e]).find? (fun r => r.commodity == c') = some e := by
              rw [List.find?_append, hres]
              simp [hec]
            rw [hstep, hfind, hres]
            simp only [Option.none_or]
            rw [if_pos (List.mem_cons_self _ _)]
            simp [exceptContribution]
      · have hstep : resolveStep f res c' = res := by
          unfold resolveStep
          rw [hres]
          simp
        rw [hstep, hres]
        simp
    · have hcond : (c ∈ c' :: cs) ↔ (c ∈ cs) := by
        rw [List.mem_cons]
        exact or_iff_right (fun h => hcc h.symm)
      have hstepfind : (resolveStep f res c').find? (fun r => r.commodity == c) =
          res.find? (fun r => r.commodity == c) := by
        rcases resolveStep_cases f res c' with h | ⟨e, h, hfe, _⟩
        · rw [h]
        · rw [h, List.find?_append]
          have hec : e.commodity = c' := hf c' (List.mem_cons_self _ _) e hfe
          have hnone : [e].find? (fun r => r.commodity == c) = none := by
            simp [hec]
            exact fun h => hcc h
          rw [hnone, Option.or_none]
      rw [hstepfind]
      rw [if_congr hcond rfl rfl]

/-- The Alpha Vantage quote found for a commodity is exactly the per-commodity
lookup result for requested commodities, and nothing otherwise. -/
theorem fetchAlphaVantagePrices_find? (quote : String → Option ℚ) (now : String) :
    ∀ (gcs : List String) (c : String),
      ((fetchAlphaVantagePrices gcs quote now).map alphaToPriceData).find?
          (fun r => r.commodity == c) =
        (if c ∈ gcs then
          (quote c).map (fun p => alphaToPriceData ⟨c, p, "USD", now⟩)
        else none) := by
  intro gcs
  induction gcs with
  | nil =>
    intro c
    simp [fetchAlphaVantagePrices]
  | cons g gs ih =>
    intro c
    rcases hq : quote g with _ | p
    · have hcons : fetchAlphaVantagePrices (g :: gs) quote now =
          fetchAlphaVantagePrices gs quote now := by
        unfold fetchAlphaVantagePrices
        rw [List.filterMap_cons, hq]
        rfl
      rw [hcons, ih c]
      by_cases hgc : g = c
      · subst hgc
        rw [if_pos (List.mem_cons_self _ _), hq]
        simp
      · have hcond : (c ∈ g :: gs) ↔ (c ∈ gs) := by
          rw [List.mem_cons]
          exact or_iff_right (fun h => hgc h.symm)
        rw [if_congr hcond rfl rfl]
    · have hcons : fetchAlphaVantagePrices (g :: gs) quote now =
          ⟨g, p, "USD", now⟩ :: fetchAlphaVantagePrices gs quote now := by
        unfold fetchAlphaVantagePrices
        rw [List.filterMap_cons, hq]
        rfl
      rw [hcons, List.map_cons]
      by_cases hgc : g = c
      · subst hgc
        rw [List.find?_cons_of_pos _ (by simp [alphaToPriceData])]
        rw [if_pos (List.mem_cons_self _ _), hq]
        rfl
      · rw [List.find?_cons_of_neg _ (by simp [alphaToPriceData]; exact fun h => hgc h)]
        rw [ih c]
        have hcond : (c ∈ g :: gs) ↔ (c ∈ gs) := by
          rw [List.mem_cons]
          exact or_iff_right (fun h => hgc h.symm)
        rw [if_congr hcond rfl rfl]

/-- The quote the Alpha Vantage stage holds for a commodity: its lookup result
when the commodity is a requested grain and the API key is configured. -/
theorem alphaStage_find? (env : Env) (gcs : List String) (c : String) :
    (alphaStage env gcs).find? (fun r => r.commodity == c) =
      (if c ∈ gcs ∧ env.alphaKey = true then
        (env.alphaQuote c).map (fun p => alphaToPriceData ⟨c, p, "USD", env.now⟩)
      else none) := by
  unfold alphaStage
  by_cases hk : env.alphaKey = true
  · by_cases hne : gcs.isEmpty
    · have hnil : gcs = [] := List.isEmpty_iff.mp hne
      subst hnil
      simp
    · rw [if_pos (by simp [hk, hne])]
      rw [fetchAlphaVantagePrices_find? env.alphaQuote env.now gcs c]
      by_cases hcg : c ∈ gcs
      · rw [if_pos hcg, if_pos ⟨hcg, hk⟩]
      · rw [if_neg hcg, if_neg (fun h => hcg h.1)]
  · rw [if_neg (by simp [hk])]
    have : ¬(c ∈ gcs ∧ env.alphaKey = true) := fun h => hk h.2
    rw [if_neg this]
    rfl

/-- The quote the Kamis flour pass leaves for a commodity: what the
accumulator already held, or else the converted first matching flour price
when the commodity is in the flour subset and the fetch did not throw. -/
theorem kamisFlourStage_find? (env : Env) (m : Bool) (fcs : List String)
    (res : List PriceData) (c : String) :
    (kamisFlourStage env m fcs res).find? (fun r => r.commodity == c) =
      ((res.find? (fun r => r.commodity == c)).or
        (if c ∈ fcs then
          (match (if m then Except.ok (getMockKamisFlourPrices env.now) else env.kamisFlourFetch) with
            | .error _ => none
            | .ok lst => kamisFlourEntry env lst c)
          else none)) := by
  unfold kamisFlourStage
  by_cases he : fcs.isEmpty
  · have hnil : fcs = [] := List.isEmpty_iff.mp he
    subst hnil
    simp [Option.or_none]
  · rw [if_neg he]
    rcases hfetch : (if m then Except.ok (getMockKamisFlourPrices env.now) else env.kamisFlourFetch) with u | lst
    · simp [Option.or_none]
    · rw [resolveFold_find? _ fcs res c (fun c' _ e hh => by
        injection hh with hh'
        exact kamisFlourEntry_commodity env lst c' e hh')]
      rfl

/-- The quote each source of the priority chain would contribute for a
commodity under a given request, in the fetcher's fixed order: Alpha Vantage,
the Kamis flour pass, the Kamis grain pass, Tridge, the World Bank, and the
static fallback table.  Sources contribute nothing for commodities outside
the subset they serve. -/
def stagePriorityList (options : FetchOptions) (env : Env) (c : String) : List (Option PriceData) :=
  let commodities := requestedCommodities options
  let useMockTridge := options.useMockTridge || env.envMockTridge
  let useMockKamis := options.useMockKamis || env.envMockKamis
  let flourCommodities := commodities.filter (fun s => strIncludes s "FLOUR")
  let grainCommodities := commodities.filter (fun s => !strIncludes s "FLOUR")
  [ if c ∈ grainCommodities ∧ env.alphaKey = true then
      (env.alphaQuote c).map (fun p => alphaToPriceData ⟨c, p, "USD", env.now⟩)
    else none,
    if c ∈ flourCommodities then
      (match (if useMockKamis then Except.ok (getMockKamisFlourPrices env.now) else env.kamisFlourFetch) with
        | .error _ => none
        | .ok lst => kamisFlourEntry env lst c)
    else none,
    if c ∈ grainCommodities then exceptContribution (kamisGrainResolve env useMockKamis c) else none,
    if c ∈ grainCommodities then exceptContribution (tridgeResolve env useMockTridge c) else none,
    if c ∈ grainCommodities then exceptContribution (worldBankResolve env c) else none,
    if c ∈ commodities then exceptContribution (fallbackResolve env c) else none ]

/-- C3: for every commodity, the quote `fetchWheatMaizePrices` returns for it
is exactly the contribution of the first source in the fixed priority order
(Alpha Vantage, Kamis flour pass, Kamis grain pass, Tridge, World Bank,
static fallback table) that yields one — so the first contributing source
determines the output and every later source is skipped for that commodity —
and in particular, whenever the Kamis grain source yields a WHEAT quote, the
returned WHEAT quote's source is never `Fallback`. -/
theorem fetchWheatMaizePrices_priority_order (options : FetchOptions) (env : Env) :
    (∀ c, (fetchWheatMaizePrices options env).find? (fun r => r.commodity == c) =
      firstSome (stagePriorityList options env c)) ∧
    (∀ l, (if options.useMockKamis || env.envMockKamis then Except.ok (getMockKamisPrices env.now)
        else env.kamisGrainFetch "WHEAT") = Except.ok l →
      (l.find? (fun p => p.commodity == "WHEAT")).isSome →
      ∀ q ∈ fetchWheatMaizePrices options env, q.commodity = "WHEAT" →
        q.source ≠ DataSource.fallback) := by
  constructor
  · intro c
    have hLHS : (fetchWheatMaizePrices options env).find? (fun r => r.commodity == c) =
        (resolveFold (fallbackResolve env) (requestedCommodities options)
          (resolveFold (worldBankResolve env)
            ((requestedCommodities options).filter (fun s => !strIncludes s "FLOUR"))
            (resolveFold (tridgeResolve env (options.useMockTridge || env.envMockTridge))
              ((requestedCommodities options).filter (fun s => !strIncludes s "FLOUR"))
              (resolveFold (kamisGrainResolve env (options.useMockKamis || env.envMockKamis))
                ((requestedCommodities options).filter (fun s => !strIncludes s "FLOUR"))
                (kamisFlourStage env (options.useMockKamis || env.envMockKamis)
                  ((requestedCommodities options).filter (fun s => strIncludes s "FLOUR"))
                  (alphaStage env
                    ((requestedCommodities options).filter (fun s => !strIncludes s "FLOUR")))))))).find?
          (fun r => r.commodity == c) := rfl
    rw [hLHS]
    rw [resolveFold_find? (fallbackResolve env) _ _ c
      (fun c' _ e hh => fallbackResolve_commodity env c' e hh)]
    rw [resolveFold_find? (worldBankResolve env) _ _ c
      (fun c' _ e hh => worldBankResolve_commodity env c' e hh)]
    rw [resolveFold_find? (tridgeResolve env (options.useMockTridge || env.envMockTridge)) _ _ c
      (fun c' _ e hh => tridgeResolve_commodity env _ c' e hh)]
    rw [resolveFold_find? (kamisGrainResolve env (options.useMockKamis || env.envMockKamis)) _ _ c
      (fun c' _ e hh => kamisGrainResolve_commodity env _ c' e hh)]
    rw [kamisFlourStage_find?]
    rw [alphaStage_find?]
    simp only [stagePriorityList, firstSome, Option.or_assoc, Option.or_none]
  · intro l hfetch hl q hq hc
    have h := fetchWheatMaizePrices_kamis_priority options env "WHEAT" l (by decide) hfetch hl q hq hc
    rcases h with h | h <;> (rw [h]; intro hcon; cases hcon)

/-- C3 witness: the priority equality at a concrete environment in which the
Kamis grain scrape yields a WHEAT quote, whose returned WHEAT quote is not
the fallback one. -/
theorem fetchWheatMaizePrices_priority_order_witness :
    (fetchWheatMaizePrices ⟨none, false, false, false, false⟩ kamisWheatEnv).find?
        (fun r => r.commodity == "WHEAT") =
      firstSome (stagePriorityList ⟨none, false, false, false, false⟩ kamisWheatEnv "WHEAT") ∧
    (kamisToPriceData (convertKamisPriceToUSD kgKesSample 154 2 90) ProductType.grain).source ≠
      DataSource.fallback :=
  ⟨(fetchWheatMaizePrices_priority_order ⟨none, false, false, false, false⟩ kamisWheatEnv).1 "WHEAT",
   (fetchWheatMaizePrices_priority_order ⟨none, false, false, false, false⟩ kamisWheatEnv).2
     [kgKesSample] rfl rfl
     (kamisToPriceData (convertKamisPriceToUSD kgKesSample 154 2 90) ProductType.grain)
     (List.mem_cons_self _ _) rfl⟩
